import Mathlib

/-!
Verification of the Nebula_Mapper statement-generation pipeline.

This file shallowly embeds the core of the repository (the JSON path
navigator with its memoized path cache, the transform engine's built-in
transforms, the statement generator, and the schema manager's type
conversion and identifier escaping) as executable Lean definitions, and
proves the specification's claims about them.

Modelling conventions:
 - C++ `std::string` is modelled by Lean `String`; the character
   classification functions (`isalpha`, `isalnum`, `isdigit`, `toupper`)
   are modelled by their ASCII semantics, which is what the C++ "C"
   locale gives on the ASCII inputs the program deals with.
 - Machine integers (`int64_t`, `size_t`) are modelled by `Int`/`Nat`
   with explicit range checks where the code's library calls
   (`std::stoll`, `std::stoul`) perform them.
 - Fallible code (the repository's `Result<T, E> = std::variant<T, E>`
   idiom) is modelled by `Except E T`; `return error;` inside a loop
   becomes monadic short-circuiting, which is exactly the source's
   control flow.
 - JSON floating-point values are outside the embedding: IEEE-754
   formatting is not shallowly embeddable, and no claim under
   consideration depends on a float value.  The JSON tree therefore has
   integer numbers only; the `DOUBLE` scalar alternative that the code
   can produce from an integer is kept (constructor `Scalar.d`) and is
   printed by a model of the default 6-significant-digit `operator<<`
   formatting, exact for the integral doubles the model can build.
 - `std::get_time` (used only by the `time_format` transform) is a C
   library call that is not modelled; the model's `format_time` reports
   a parse failure.  No claim depends on `time_format`'s parse result.
-/

/-- JSON document tree (nlohmann::json restricted to the value kinds the
claims exercise; floats are outside the embedding, see the header). -/
inductive Json where
  | null : Json
  | bool : Bool → Json
  | int : Int → Json
  | str : String → Json
  | arr : List Json → Json
  | obj : List (String × Json) → Json

/-- Error type of the JSON parser component (`parser::json::Error`; the
line/column fields are never set by path navigation and are omitted). -/
structure JsonError where
  message : String
deriving Repr, DecidableEq

/-- One character of the C "C"-locale whitespace class, as used by
`std::stoul`'s leading-whitespace skip. -/
def cppIsSpace (c : Char) : Bool :=
  c = ' ' || c = '\t' || c = '\n' || c = '\x0b' || c = '\x0c' || c = '\r'

/-- Decimal value of a digit list (most significant first). -/
def digitsToNat (ds : List Char) : Nat :=
  ds.foldl (fun acc c => acc * 10 + (c.toNat - '0'.toNat)) 0

/-- Model of `std::stoul(s)` (base 10): skip leading whitespace, accept an
optional sign, then a maximal nonempty digit run (trailing characters are
ignored).  Returns `none` where the C++ call throws: no digits at all
(`invalid_argument`) or magnitude above `ULONG_MAX` (`out_of_range`).  A
negative input wraps modulo 2^64 as unsigned conversion does. -/
def cppStoul (s : String) : Option Nat :=
  let cs := s.toList.dropWhile cppIsSpace
  let (neg, cs) :=
    match cs with
    | '-' :: rest => (true, rest)
    | '+' :: rest => (false, rest)
    | rest => (false, rest)
  let digits := cs.takeWhile Char.isDigit
  if digits.isEmpty then none
  else
    let n := digitsToNat digits
    if n ≥ 2 ^ 64 then none
    else if neg then some ((2 ^ 64 - n) % 2 ^ 64)
    else some n

/-- After emitting a bracketed `[n]` segment, `split_path` skips exactly
one directly following slash. -/
def dropOneSlash : List Char → List Char
  | '/' :: t => t
  | t => t

/-- Model of `common::utils::split_path`'s main loop: it is given the path
with the single optional leading slash already stripped, and accumulates
the pending segment characters.  A `[` that has a matching `]` later in
the path closes the pending segment, emits the bracketed segment whole,
and skips one directly following slash; a `[` without any later `]` is an
ordinary character; `/` closes the pending segment.  The loop consumes
at least one character per iteration, so running it with fuel equal to
the character count computes the full segmentation; the fuel argument
only provides structural termination. -/
def splitPathGo : Nat → List Char → List Char → List (List Char)
  | _, [], cur => if cur.isEmpty then [] else [cur]
  | 0, _ :: _, cur => if cur.isEmpty then [] else [cur]
  | fuel + 1, '[' :: rest, cur =>
    if (']' ∈ rest) then
      let inside := rest.takeWhile (· ≠ ']')
      let after := (rest.dropWhile (· ≠ ']')).tail
      (if cur.isEmpty then [] else [cur]) ++
        (('[' :: inside ++ [']']) :: splitPathGo fuel (dropOneSlash after) [])
    else
      splitPathGo fuel rest (cur ++ ['['])
  | fuel + 1, '/' :: rest, cur =>
    (if cur.isEmpty then [] else [cur]) ++ splitPathGo fuel rest []
  | fuel + 1, c :: rest, cur => splitPathGo fuel rest (cur ++ [c])

/-- Model of `common::utils::split_path`: strip one leading slash, then
run the segmentation loop. -/
def split_path (path : String) : List String :=
  match path.toList with
  | [] => []
  | '/' :: rest => (splitPathGo rest.length rest []).map fun cs => String.mk cs
  | cs => (splitPathGo cs.length cs []).map fun cs => String.mk cs

/-- First-match association-list lookup, the model of keyed lookup in
`nlohmann::json` objects and of `std::unordered_map` access. -/
def alookup {α : Type} : List (String × α) → String → Option α
  | [], _ => none
  | (k, v) :: rest, key => if k = key then some v else alookup rest key

theorem alookup_mem {α : Type} (l : List (String × α)) (key : String)
    (v : α) (h : alookup l key = some v) : (key, v) ∈ l := by
  induction l with
  | nil => simp [alookup] at h
  | cons e rest ih =>
    obtain ⟨k, w⟩ := e
    unfold alookup at h
    by_cases hk : k = key
    · simp only [hk, if_pos rfl] at h
      subst hk
      cases h
      exact List.mem_cons_self _ _
    · simp only [if_neg hk] at h
      exact List.mem_cons_of_mem _ (ih h)

/-- Model of `JsonParser::navigate_path`: walk the segment list; a segment
of the form `[...]` is parsed by `stoul` and indexes the current array
(index parse failure, non-array node and out-of-bounds index are errors,
checked in that order, as in the source); any other segment is an object
key lookup (non-object node and missing key are errors). -/
def navigate_path (j : Json) : List String → Except JsonError Json
  | [] => .ok j
  | seg :: rest =>
    let cs := seg.toList
    if !cs.isEmpty && cs.head? = some '[' && cs.getLast? = some ']' then
      match cppStoul (String.mk (cs.tail.dropLast)) with
      | none => .error ⟨"Invalid array index: " ++ seg⟩
      | some index =>
        match j with
        | .arr xs =>
          match xs[index]? with
          | some x => navigate_path x rest
          | none => .error ⟨"Array index out of bounds: " ++ seg⟩
        | _ => .error ⟨"Expected array at path segment: " ++ seg⟩
    else
      match j with
      | .obj fields =>
        match alookup fields seg with
        | some v => navigate_path v rest
        | none => .error ⟨"Property not found: " ++ seg⟩
      | _ => .error ⟨"Expected object at path segment: " ++ seg⟩

/-- The path-segment cache of the `JsonParser` singleton: it maps literal
path strings to their parsed segment lists (`path_cache_`). -/
structure JsonParserState where
  path_cache : List (String × List String)
deriving Repr

/-- Model of `JsonParser::get_parsed_path`: return the cached segment list
when present, otherwise parse the path, insert it into the cache and
return it. -/
def get_parsed_path (st : JsonParserState) (path : String) :
    List String × JsonParserState :=
  match alookup st.path_cache path with
  | some segs => (segs, st)
  | none =>
    let segs := split_path path
    (segs, ⟨(path, segs) :: st.path_cache⟩)

/-- Model of `JsonParser::get_value<JsonDocument>`: look the segments up
through the cache, then navigate (the final `get<JsonDocument>` copy
never fails). -/
def get_value_doc (st : JsonParserState) (j : Json) (path : String) :
    Except JsonError Json × JsonParserState :=
  let (segs, st') := get_parsed_path st path
  (navigate_path j segs, st')

/-- A cache state is well formed when every entry stores exactly the
parse of its key, which is the invariant `get_parsed_path` maintains. -/
def CacheWF (st : JsonParserState) : Prop :=
  ∀ e ∈ st.path_cache, e.2 = split_path e.1

theorem cacheWF_empty : CacheWF ⟨[]⟩ := by
  intro e he; simp at he

theorem get_parsed_path_eq_of_wf (st : JsonParserState) (path : String)
    (hwf : CacheWF st) :
    (get_parsed_path st path).1 = split_path path ∧
      CacheWF (get_parsed_path st path).2 := by
  unfold get_parsed_path
  cases hlook : alookup st.path_cache path with
  | none =>
    refine ⟨rfl, ?_⟩
    intro e he
    simp only [List.mem_cons] at he
    rcases he with he | he
    · subst he; rfl
    · exact hwf e he
  | some segs =>
    have hmem := alookup_mem _ _ _ hlook
    have := hwf (path, segs) hmem
    exact ⟨this, hwf⟩

theorem get_value_doc_eq_of_wf (st : JsonParserState) (j : Json)
    (path : String) (hwf : CacheWF st) :
    (get_value_doc st j path).1 = navigate_path j (split_path path) ∧
      CacheWF (get_value_doc st j path).2 := by
  unfold get_value_doc
  obtain ⟨h1, h2⟩ := get_parsed_path_eq_of_wf st path hwf
  constructor
  · simp only [h1]
  · exact h2

/-- C8: path resolution is cache-transparent — resolving a path against a
document with the cold (empty) cache and resolving it again with the
cache warmed by that first resolution yield identical results, success or
failure alike. -/
theorem path_resolution_cache_transparent (path : String) (j : Json) :
    (get_value_doc ((get_value_doc ⟨[]⟩ j path).2) j path).1 =
      (get_value_doc ⟨[]⟩ j path).1 := by
  obtain ⟨h1, hwf1⟩ := get_value_doc_eq_of_wf ⟨[]⟩ j path cacheWF_empty
  obtain ⟨h2, _⟩ := get_value_doc_eq_of_wf ((get_value_doc ⟨[]⟩ j path).2)
    j path hwf1
  rw [h1, h2]

/-- The closed scalar set carried by `Value`/`TransformValue`
(`std::variant<std::string, int64_t, double, bool>`).  The `d`
constructor holds the exact integer value of a double; the model builds
doubles only from JSON integers, so every double it can hold is
integral (see the file header). -/
inductive Scalar where
  | s : String → Scalar
  | i : Int → Scalar
  | d : Int → Scalar
  | b : Bool → Scalar
deriving Repr, DecidableEq

/-- Digit string of a natural number, most significant digit first. -/
def natDigitChars (n : Nat) : List Char :=
  (toString n).toList

/-- Round a digit list (most significant first) to six significant
digits with ties to even, returning the six digits and whether the
rounding overflowed into an extra order of magnitude. -/
def roundSixDigits (ds : List Char) : List Char × Bool :=
  let p := digitsToNat (ds.take 6)
  let rest := ds.drop 6
  let p' :=
    match rest with
    | [] => p
    | r :: tailRest =>
      if r.toNat - '0'.toNat > 5 then p + 1
      else if r.toNat - '0'.toNat < 5 then p
      else if tailRest.any (fun c => c ≠ '0') then p + 1
      else if p % 2 = 0 then p else p + 1
  if p' ≥ 1000000 then (natDigitChars (p' / 10), true)
  else (natDigitChars p', false)

/-- Model of `std::ostream <<` for a double holding the exact integer
`v`, with the default 6-significant-digit `%g`-style formatting: plain
decimal below 10^6, otherwise scientific notation with the mantissa's
trailing zeros stripped.  Exact for `|v| < 2^53`, where the double is
exact; no claim exercises this function. -/
def cppDoubleText (v : Int) : String :=
  let sign := if v < 0 then "-" else ""
  let m := v.natAbs
  if m < 1000000 then sign ++ toString m
  else
    let ds := natDigitChars m
    let exp0 := ds.length - 1
    let (six, carried) := roundSixDigits ds
    let exp := if carried then exp0 + 1 else exp0
    let frac := (six.drop 1).reverse.dropWhile (fun c => c = '0') |>.reverse
    let mant :=
      match six with
      | [] => "0"
      | d0 :: _ =>
        if frac.isEmpty then String.mk [d0]
        else String.mk [d0] ++ "." ++ String.mk frac
    let expStr := if exp < 10 then "0" ++ toString exp else toString exp
    sign ++ mant ++ "e+" ++ expStr

/-- A value in flight through the transform engine
(`transformer::TransformValue`). -/
structure TransformValue where
  value : Scalar
  source_type : String
  target_type : String
deriving Repr, DecidableEq

/-- `transformer::TransformError`. -/
structure TransformError where
  message : String
  context : Option String := none
  source_value : Option String := none
deriving Repr, DecidableEq

/-- Model of `detail::convert_value<std::string>`: reuse a string
payload, otherwise stringify with `std::to_string` (integers print in
decimal; a bool promotes to `int`, printing `1`/`0`; `std::to_string`
of a double uses fixed six-decimal notation). -/
def convert_value_string (v : TransformValue) : String :=
  match v.value with
  | .s s => s
  | .i n => toString n
  | .d x => toString x ++ ".000000"
  | .b b => if b then "1" else "0"

/-- Model of `detail::trim`: strip leading and trailing characters of
the set space, tab, newline, carriage return (the source's literal
`" \t\n\r"`). -/
def trimStr (s : String) : String :=
  let isTrimmed (c : Char) : Bool := c = ' ' || c = '\t' || c = '\n' || c = '\r'
  String.mk ((s.toList.dropWhile isTrimmed).reverse.dropWhile isTrimmed).reverse

/-- Collapse maximal runs of `\s` whitespace to single spaces, the model
of `std::regex_replace(s, regex("\\s+"), " ")`. -/
def collapseWhitespace : Bool → List Char → List Char
  | _, [] => []
  | prevSpace, c :: rest =>
    if cppIsSpace c then
      if prevSpace then collapseWhitespace true rest
      else ' ' :: collapseWhitespace true rest
    else c :: collapseWhitespace false rest

/-- Model of `detail::normalize_string`: trim, then collapse internal
whitespace runs to single spaces. -/
def normalize_string (input : String) : Except TransformError String :=
  .ok (String.mk (collapseWhitespace false (trimStr input).toList))

/-- Model of `detail::parse_price`: keep only the decimal digits of the
input, then parse them with `std::stoll`; an empty digit string
(`invalid_argument`) or a value above `int64` range (`out_of_range`)
makes `stoll` throw, which the source reports as an error. -/
def parse_price (price_str : String) : Except TransformError Int :=
  let clean := price_str.toList.filter Char.isDigit
  if clean.isEmpty then
    .error ⟨"Error parsing price: invalid stoll argument", none, some price_str⟩
  else
    let n := digitsToNat clean
    if n ≤ 2 ^ 63 - 1 then .ok (n : Int)
    else .error ⟨"Error parsing price: stoll out of range", none, some price_str⟩

/-- Model of `detail::parse_boolean`: lowercase, then match against the
fixed table `{true,1,yes,false,0,no}`. -/
def parse_boolean (value : String) : Except TransformError Bool :=
  let lower := String.mk (value.toList.map Char.toLower)
  if lower = "true" || lower = "1" || lower = "yes" then .ok true
  else if lower = "false" || lower = "0" || lower = "no" then .ok false
  else .error ⟨"Invalid boolean value", some value, none⟩

/-- Model of `detail::split`: split on the (possibly multi-character)
delimiter, trimming every part. -/
def splitTrim (str delim : String) : List String :=
  (str.splitOn delim).map trimStr

/-- Model of `detail::join`. -/
def joinParts (parts : List String) (delim : String) : String :=
  String.intercalate delim parts

/-- Model of `detail::format_time`.  `std::get_time` is a C library
call outside the embedding; the model reports the source's parse
failure unconditionally, and no claim depends on this branch. -/
def format_time (time_str _fmt : String) : Except TransformError String :=
  .error ⟨"Failed to parse time string", some time_str, none⟩

/-- Model of `TransformEngine::time_transform`: requires a `format`
parameter, stringifies the input, then parses and re-formats it. -/
def time_transform (value : TransformValue)
    (params : List (String × String)) : Except TransformError TransformValue :=
  match alookup params "format" with
  | none => .error ⟨"Missing required parameter: format", none, none⟩
  | some fmt => do
    let str := convert_value_string value
    let formatted ← format_time str fmt
    .ok ⟨.s formatted, "STRING", "TIMESTAMP"⟩

/-- Model of `TransformEngine::price_transform` (`price_normalize`). -/
def price_transform (value : TransformValue)
    (_params : List (String × String)) : Except TransformError TransformValue := do
  let str := convert_value_string value
  let price ← parse_price str
  .ok ⟨.i price, "STRING", "INT64"⟩

/-- Model of `TransformEngine::string_transform` (`string_normalize`). -/
def string_transform (value : TransformValue)
    (_params : List (String × String)) : Except TransformError TransformValue := do
  let str := convert_value_string value
  let normalized ← normalize_string str
  .ok ⟨.s normalized, "STRING", "STRING"⟩

/-- Model of `TransformEngine::array_join_transform` (`array_join`). -/
def array_join_transform (value : TransformValue)
    (params : List (String × String)) : Except TransformError TransformValue :=
  let delimiter := (alookup params "delimiter").getD ","
  let str := convert_value_string value
  let joined := joinParts (splitTrim str delimiter) delimiter
  .ok ⟨.s joined, "STRING", "STRING"⟩

/-- Model of `TransformEngine::boolean_transform` (`to_boolean`). -/
def boolean_transform (value : TransformValue)
    (_params : List (String × String)) : Except TransformError TransformValue := do
  let str := convert_value_string value
  let b ← parse_boolean str
  .ok ⟨.b b, "STRING", "BOOL"⟩

/-- Model of `TransformEngine::apply_transform` over the registry as
populated by `init_builtin_transforms` (custom registrations happen
through the same map and are outside the claims). -/
def apply_transform (name : String) (value : TransformValue)
    (params : List (String × String)) : Except TransformError TransformValue :=
  if name = "time_format" then time_transform value params
  else if name = "price_normalize" then price_transform value params
  else if name = "string_normalize" then string_transform value params
  else if name = "array_join" then array_join_transform value params
  else if name = "to_boolean" then boolean_transform value params
  else .error ⟨"Transform not found: " ++ name, none, none⟩

/-- `graph::StatementError`. -/
structure StatementError where
  message : String
  context : Option String := none
  json_path : Option String := none
deriving Repr, DecidableEq

/-- `graph::Value`, the transient extraction result.  The C++ variant
default-constructs to an empty string, which is what a default `Value`
holds. -/
structure Value where
  nebula_type : String := ""
  value : Scalar := .s ""
  is_null : Bool := false
deriving Repr, DecidableEq

/-- A named transform reference attached to a property
(`parser::mapping::Transform`): the registry name plus parameters. -/
structure Transform where
  type : String
  params : List (String × String)

/-- `parser::mapping::Property`. -/
structure Property where
  name : String
  json_path : String
  nebula_type : String
  optional : Bool := false
  indexable : Bool := false
  default_value : Option String := none
  transform : Option Transform := none

/-- `parser::yaml::DynamicFieldsConfig` as used by the generator. -/
structure DynamicFieldsConfig where
  enabled : Bool := false
  allowed_types : List String := []
  excluded_properties : List String := []

/-- `parser::mapping::VertexMapping`. -/
structure VertexMapping where
  tag_name : String
  source_path : String
  key_path : String
  properties : List Property
  dynamic_fields : DynamicFieldsConfig := {}

/-- `parser::mapping::EdgeMapping` (the anonymous `from`/`to` structs
are flattened into tag and key-path fields). -/
structure EdgeMapping where
  edge_name : String
  source_path : String
  from_tag : String
  from_key_path : String
  to_tag : String
  to_key_path : String
  properties : List Property

/-- `parser::mapping::GraphMapping` restricted to the fields
`generate_batch_statements` and `generate_schema_statements` read. -/
structure GraphMapping where
  vertices : List VertexMapping
  edges : List EdgeMapping

/-- Path resolution as the statement generator performs it through the
`JsonParser` singleton: by cache transparency
(`path_resolution_cache_transparent`) the cached resolution always
equals the direct parse-and-navigate composition, which is what this
definition is. -/
def resolvePath (j : Json) (path : String) : Except JsonError Json :=
  navigate_path j (split_path path)

/-- Model of `detail::join_values` with its default `", "` delimiter. -/
def join_values (values : List String) : String :=
  String.intercalate ", " values

/-- Model of `StatementGenerator::quote_identifier`: wrap in back-ticks
exactly when the identifier is nonempty and either starts with a
character that is neither a letter nor an underscore, or continues with
a character that is neither alphanumeric nor an underscore. -/
def quote_identifier (identifier : String) : String :=
  let needs_quotes :=
    match identifier.toList with
    | [] => false
    | c :: rest =>
      if !(c.isAlpha || c = '_') then true
      else !(rest.all fun ch => ch.isAlphanum || ch = '_')
  if needs_quotes then "`" ++ identifier ++ "`" else identifier

/-- The bare-identifier pattern `[A-Za-z_][A-Za-z0-9_]*` the
specification names. -/
def matchesIdentPattern (s : String) : Bool :=
  match s.toList with
  | [] => false
  | c :: rest => (c.isAlpha || c = '_') && rest.all fun ch => ch.isAlphanum || ch = '_'

/-- Model of `StatementGenerator::format_value`: `NULL` for null values,
double-quoted verbatim text for strings, `true`/`false` for bools,
decimal text for numbers.  The C++ `try` block has no throwing
operation for these variants, so formatting never fails. -/
def format_value (value : Value) : Except StatementError String :=
  if value.is_null then .ok "NULL"
  else
    match value.value with
    | .s v => .ok ("\"" ++ v ++ "\"")
    | .b v => .ok (if v then "true" else "false")
    | .i v => .ok (toString v)
    | .d v => .ok (cppDoubleText v)

/-- `nlohmann::json::get<int64_t>` (arithmetic `from_json`): accepts
integer numbers and booleans, rejects everything else by throwing. -/
def jsonGetInt64 : Json → Option Int
  | .int n => some n
  | .bool b => some (if b then 1 else 0)
  | _ => none

/-- `nlohmann::json::get<double>` on the model's float-free trees:
accepts integer numbers and booleans (the resulting double is exactly
the integer). -/
def jsonGetDouble : Json → Option Int
  | .int n => some n
  | .bool b => some (if b then 1 else 0)
  | _ => none

/-- `nlohmann::json::get<bool>`: strict, booleans only. -/
def jsonGetBool : Json → Option Bool
  | .bool b => some b
  | _ => none

/-- `nlohmann::json::get<std::string>`: strict, strings only. -/
def jsonGetString : Json → Option String
  | .str s => some s
  | _ => none

/-- Model of `StatementGenerator::extract_value`: resolve the property
path; a JSON null simply marks the result null; otherwise apply the
named transform when present (converting the JSON scalar to a
`TransformValue` first), else convert directly according to the
declared type string. -/
def extract_value (data : Json) (json_path : String) (nebula_type : String)
    (transform : Option Transform) : Except StatementError Value :=
  match resolvePath data json_path with
  | .error err =>
    .error ⟨"Failed to extract value: " ++ err.message, none, some json_path⟩
  | .ok extracted =>
    if extracted matches .null then
      .ok { nebula_type := nebula_type, is_null := true }
    else
      match transform with
      | some tr =>
        let input? : Option (Scalar × String) :=
          match extracted with
          | .str s => some (.s s, "STRING")
          | .int n => some (.i n, "INT64")
          | .bool b => some (.b b, "BOOL")
          | _ => none
        match input? with
        | none =>
          .error ⟨"Unsupported value type for transformation", some json_path, none⟩
        | some (sc, src) =>
          match apply_transform tr.type ⟨sc, src, nebula_type⟩ tr.params with
          | .error e =>
            .error ⟨"Transform error: " ++ e.message, some json_path, none⟩
          | .ok transformed =>
            .ok { nebula_type := nebula_type, value := transformed.value }
      | none =>
        let converted? : Option Scalar :=
          if nebula_type = "INT" || nebula_type = "INT64" then
            (jsonGetInt64 extracted).map .i
          else if nebula_type = "DOUBLE" then
            (jsonGetDouble extracted).map .d
          else if nebula_type = "BOOL" then
            (jsonGetBool extracted).map .b
          else
            (jsonGetString extracted).map .s
        match converted? with
        | some sc => .ok { nebula_type := nebula_type, value := sc }
        | none =>
          .error ⟨"Value conversion error: type mismatch", some json_path, none⟩

/-- Model of `StatementGenerator::get_vertex_id`: resolve the key path;
null ids are an error; a string id is used verbatim, a numeric id is
decimal-stringified via `get<int64_t>`; other kinds are an error; the
result is wrapped in double quotes. -/
def get_vertex_id (data : Json) (key_path : String) :
    Except StatementError String :=
  match resolvePath data key_path with
  | .error err =>
    .error ⟨"Failed to extract vertex ID: " ++ err.message, none, some key_path⟩
  | .ok extracted =>
    match extracted with
    | .null => .error ⟨"Vertex ID cannot be null", some key_path, none⟩
    | .str s => .ok ("\"" ++ s ++ "\"")
    | .int n => .ok ("\"" ++ toString n ++ "\"")
    | _ => .error ⟨"Invalid vertex ID type", some key_path, none⟩

/-- Model of `StatementGenerator::get_array_or_single`: resolve the
source path; an array yields its elements as the record list, anything
else is a single record. -/
def get_array_or_single (data : Json) (path : String) :
    Except StatementError (List Json) :=
  match resolvePath data path with
  | .error err =>
    .error ⟨"Failed to extract data: " ++ err.message, some path, none⟩
  | .ok (.arr xs) => .ok xs
  | .ok v => .ok [v]

/-- Extract and format the declared properties of one record, in
declaration order (the per-record property loop shared by the vertex
and edge paths of `generate_batch_statements`). -/
def formatProps (record : Json) : List Property →
    Except StatementError (List String)
  | [] => .ok []
  | p :: ps => do
    let v ← extract_value record p.json_path p.nebula_type p.transform
    let formatted ← format_value v
    let rest ← formatProps record ps
    .ok (formatted :: rest)

/-- The batched `INSERT VERTEX` statement text. -/
def insertVertexStmt (tag_name : String) (prop_names batch_values : List String) :
    String :=
  "INSERT VERTEX " ++ quote_identifier tag_name ++ " (" ++
    join_values prop_names ++ ") VALUES " ++ join_values batch_values ++ ";"

/-- The per-record `UPSERT VERTEX` statement text used in dynamic-field
mode. -/
def upsertVertexStmt (tag_name id_str : String)
    (prop_names prop_values : List String) : String :=
  "UPSERT VERTEX " ++ quote_identifier tag_name ++ " " ++ id_str ++ " (" ++
    join_values prop_names ++ ") VALUES (" ++ join_values prop_values ++ ");"

/-- The batched `INSERT EDGE` statement text. -/
def insertEdgeStmt (edge_name : String) (prop_names batch_values : List String) :
    String :=
  "INSERT EDGE " ++ quote_identifier edge_name ++ " (" ++
    join_values prop_names ++ ") VALUES " ++ join_values batch_values ++ ";"

/-- The `"<id>":(<values>)` tuple accumulated into a vertex batch. -/
def vertexTupleStr (id_str : String) (prop_values : List String) : String :=
  id_str ++ ":(" ++ join_values prop_values ++ ")"

/-- The record loop of the vertex half of
`generate_batch_statements`: for each record, resolve the id; in
dynamic-field mode skip ids already processed for this tag and record
new ids before property extraction; then extract and format the
declared properties; dynamic-field mode emits one `UPSERT` per record,
otherwise the tuple joins the batch, which is flushed as one `INSERT`
when it reaches `batch_size`.  Returns the emitted statements, the
unflushed batch, and the updated processed-id set. -/
def vertexLoop (vm : VertexMapping) (prop_names : List String)
    (batch_size : Nat) :
    List Json → List String → List String →
    Except StatementError (List String × List String × List String)
  | [], batch, processed => .ok ([], batch, processed)
  | record :: records, batch, processed => do
    let id_str ← get_vertex_id record vm.key_path
    if vm.dynamic_fields.enabled && processed.contains id_str then
      vertexLoop vm prop_names batch_size records batch processed
    else
      let processed' :=
        if vm.dynamic_fields.enabled then id_str :: processed else processed
      let prop_values ← formatProps record vm.properties
      if vm.dynamic_fields.enabled then
        let stmt := upsertVertexStmt vm.tag_name id_str prop_names prop_values
        let (stmts, b, pr) ←
          vertexLoop vm prop_names batch_size records batch processed'
        .ok (stmt :: stmts, b, pr)
      else
        let batch' := batch ++ [vertexTupleStr id_str prop_values]
        if batch_size ≤ batch'.length then
          let (stmts, b, pr) ←
            vertexLoop vm prop_names batch_size records [] processed'
          .ok (insertVertexStmt vm.tag_name prop_names batch' :: stmts, b, pr)
        else
          vertexLoop vm prop_names batch_size records batch' processed'

/-- Process one vertex mapping: pull its records, run the record loop
with this tag's processed-id set, and flush a non-empty partial batch
after the loop.  Returns the statements and the updated per-tag
processed-vertices map. -/
def processVertexMapping (data : Json) (batch_size : Nat)
    (processed_vertices : List (String × List String)) (vm : VertexMapping) :
    Except StatementError (List String × List (String × List String)) := do
  let records ← get_array_or_single data vm.source_path
  let prop_names := vm.properties.map fun p => quote_identifier p.name
  let initial := (alookup processed_vertices vm.tag_name).getD []
  let (stmts, batch, processedFinal) ←
    vertexLoop vm prop_names batch_size records [] initial
  let flushed :=
    if batch.isEmpty then stmts
    else stmts ++ [insertVertexStmt vm.tag_name prop_names batch]
  let pm' :=
    if vm.dynamic_fields.enabled then
      (vm.tag_name, processedFinal) :: processed_vertices
    else processed_vertices
  .ok (flushed, pm')

/-- The record loop of the edge half of `generate_batch_statements`:
resolve both endpoint ids, extract and format the properties,
accumulate `"<from>" -> "<to>":(<values>)` tuples and flush full
batches; no de-duplication. -/
def edgeLoop (em : EdgeMapping) (prop_names : List String)
    (batch_size : Nat) :
    List Json → List String →
    Except StatementError (List String × List String)
  | [], batch => .ok ([], batch)
  | record :: records, batch => do
    let src_id ← get_vertex_id record em.from_key_path
    let dst_id ← get_vertex_id record em.to_key_path
    let prop_values ← formatProps record em.properties
    let batch' := batch ++
      [src_id ++ " -> " ++ dst_id ++ ":(" ++ join_values prop_values ++ ")"]
    if batch_size ≤ batch'.length then
      let (stmts, b) ← edgeLoop em prop_names batch_size records []
      .ok (insertEdgeStmt em.edge_name prop_names batch' :: stmts, b)
    else
      edgeLoop em prop_names batch_size records batch'

/-- Process one edge mapping, flushing the partial batch after the
loop. -/
def processEdgeMapping (data : Json) (batch_size : Nat) (em : EdgeMapping) :
    Except StatementError (List String) := do
  let records ← get_array_or_single data em.source_path
  let prop_names := em.properties.map fun p => quote_identifier p.name
  let (stmts, batch) ← edgeLoop em prop_names batch_size records []
  if batch.isEmpty then .ok stmts
  else .ok (stmts ++ [insertEdgeStmt em.edge_name prop_names batch])

/-- Fold `processVertexMapping` over the vertex mappings in declaration
order, threading the processed-vertices map (which the source shares
across all mappings of one call, keyed by tag name). -/
def runVertexMappings (data : Json) (batch_size : Nat) :
    List VertexMapping → List (String × List String) →
    Except StatementError (List String × List (String × List String))
  | [], pm => .ok ([], pm)
  | vm :: vms, pm => do
    let (stmts, pm') ← processVertexMapping data batch_size pm vm
    let (rest, pm'') ← runVertexMappings data batch_size vms pm'
    .ok (stmts ++ rest, pm'')

/-- Fold `processEdgeMapping` over the edge mappings in declaration
order. -/
def runEdgeMappings (data : Json) (batch_size : Nat) :
    List EdgeMapping → Except StatementError (List String)
  | [] => .ok []
  | em :: ems => do
    let stmts ← processEdgeMapping data batch_size em
    let rest ← runEdgeMappings data batch_size ems
    .ok (stmts ++ rest)

/-- Model of `StatementGenerator::generate_batch_statements`: all vertex
mappings first, then all edge mappings; any error short-circuits the
whole call. -/
def generate_batch_statements (mapping : GraphMapping) (data : Json)
    (batch_size : Nat) : Except StatementError (List String) := do
  let (vstmts, _) ← runVertexMappings data batch_size mapping.vertices []
  let estmts ← runEdgeMappings data batch_size mapping.edges
  .ok (vstmts ++ estmts)

/-- `graph::SchemaError`. -/
structure SchemaError where
  message : String
  context : Option String := none
deriving Repr, DecidableEq

/-- ASCII `::toupper` applied per character, the model of the
case-normalization copy in `convert_to_nebula_type`. -/
def toUpperAscii (s : String) : String :=
  String.mk (s.toList.map Char.toUpper)

/-- The `TYPE_MAP` table of `SchemaManager::convert_to_nebula_type`. -/
def schemaTypeMap (u : String) : Option String :=
  if u = "INT" then some "INT64"
  else if u = "INTEGER" then some "INT64"
  else if u = "FLOAT" then some "DOUBLE"
  else if u = "DOUBLE" then some "DOUBLE"
  else if u = "BOOL" then some "BOOL"
  else if u = "BOOLEAN" then some "BOOL"
  else if u = "TIMESTAMP" then some "TIMESTAMP"
  else if u = "DATE" then some "DATE"
  else if u = "TIME" then some "TIME"
  else if u = "DATETIME" then some "DATETIME"
  else none

/-- The `VALID_TYPES` set of the schema manager. -/
def schemaValidTypes : List String :=
  ["BOOL", "INT", "INT8", "INT16", "INT32", "INT64",
   "FLOAT", "DOUBLE", "STRING", "FIXED_STRING",
   "TIMESTAMP", "DATE", "TIME", "DATETIME"]

/-- The `RESERVED_KEYWORDS` set of the schema manager. -/
def reservedKeywords : List String :=
  ["SPACE", "TAG", "EDGE", "VERTEX", "INDEX",
   "INSERT", "UPDATE", "DELETE", "WHERE", "YIELD"]

/-- Model of `SchemaManager::convert_to_nebula_type`: uppercase the type
name; string types render as `<NAME>(<length>)`, taking the per-type
`DEFAULT_LENGTHS` entry (`STRING`/`VARCHAR` 256, `FIXED_STRING` 32)
when the supplied length is not positive, and rejecting lengths above
65535; other names go through `TYPE_MAP`, already-canonical names pass
through, and anything else is an "Unsupported type" error.  The C++
declaration gives the length parameter a default of 256, so the
one-argument call sites always pass a positive length. -/
def convertTypeCore (upper_type : String) (string_length : Nat)
    (type : String) : Except SchemaError String :=
  if upper_type = "STRING" || upper_type = "FIXED_STRING" ||
      upper_type = "VARCHAR" then
    let dflt := if upper_type = "FIXED_STRING" then 32 else 256
    let length := if string_length > 0 then string_length else dflt
    if length > 65535 then
      .error ⟨"String length exceeds maximum allowed: " ++ toString length, none⟩
    else
      .ok (upper_type ++ "(" ++ toString length ++ ")")
  else
    match schemaTypeMap upper_type with
    | some mapped => .ok mapped
    | none =>
      if upper_type ∈ schemaValidTypes then .ok upper_type
      else .error ⟨"Unsupported type: " ++ type, none⟩

/-- See the doc comment above: the body is `convertTypeCore` applied to
the uppercased name, with the original name kept for the final error
message, exactly as the source writes it. -/
def convert_to_nebula_type (type : String) (string_length : Nat) :
    Except SchemaError String :=
  convertTypeCore (toUpperAscii type) string_length type

/-- Model of `graph::detail::escape_identifier`: unconditional
back-ticks. -/
def escape_identifier (name : String) : String :=
  "`" ++ name ++ "`"

/-- Model of `graph::detail::get_index_name`. -/
def get_index_name (element_name property_name : String) : String :=
  element_name ++ "_" ++ property_name ++ "_idx"

/-- Model of `SchemaManager::is_valid_identifier`: nonempty, at most 128
characters, not a reserved keyword, first character a letter or
underscore, remainder alphanumeric or underscore. -/
def is_valid_identifier (name : String) : Bool :=
  if name.isEmpty || name.length > 128 then false
  else if name ∈ reservedKeywords then false
  else matchesIdentPattern name

/-- `graph::SchemaProperty` restricted to the fields
`generate_schema_statements` sets and reads. -/
structure SchemaProperty where
  name : String
  type : String
  nullable : Bool
  indexable : Bool
  default_value : Option String
deriving Repr, DecidableEq

/-- The property-conversion loop shared by the tag and edge halves of
`generate_schema_statements`: convert each declared type (with the
call-site default length 256), short-circuiting on failure. -/
def convertSchemaProps : List Property →
    Except SchemaError (List SchemaProperty)
  | [] => .ok []
  | p :: ps => do
    let t ← convert_to_nebula_type p.nebula_type 256
    let rest ← convertSchemaProps ps
    .ok ({ name := p.name, type := t, nullable := p.optional,
           indexable := p.indexable, default_value := p.default_value } :: rest)

/-- Model of `SchemaManager::is_valid_property_name` (delegates to
`is_valid_identifier`). -/
def is_valid_property_name (name : String) : Bool :=
  is_valid_identifier name

/-- The property-name half of `SchemaManager::validate_schema_element`:
report the first invalid property name. -/
def validatePropNames (element_name : String) :
    List SchemaProperty → Except SchemaError Unit
  | [] => .ok ()
  | p :: ps =>
    if !is_valid_property_name p.name then
      .error ⟨"Invalid property name: " ++ p.name, some element_name⟩
    else validatePropNames element_name ps

/-- Model of `SchemaManager::validate_schema_element`. -/
def validate_schema_element (element_name : String)
    (props : List SchemaProperty) : Except SchemaError Unit :=
  if !is_valid_identifier element_name then
    .error ⟨"Invalid schema element name: " ++ element_name, none⟩
  else validatePropNames element_name props

/-- One property line of a `CREATE TAG`/`CREATE EDGE` body. -/
def schemaPropLine (p : SchemaProperty) : String :=
  "    " ++ escape_identifier p.name ++ " " ++ p.type ++
    (if !p.nullable then " NOT NULL" else "") ++
    (match p.default_value with
     | some d => " DEFAULT " ++ d
     | none => "")

/-- The full `CREATE TAG` statement text for one vertex mapping. -/
def createTagStmt (tag_name : String) (props : List SchemaProperty) : String :=
  "CREATE TAG IF NOT EXISTS " ++ escape_identifier tag_name ++ " (\n" ++
    String.intercalate ",\n" (props.map schemaPropLine) ++
    "\n) ttl_duration = 0, ttl_col = \"\";"

/-- The full `CREATE EDGE` statement text for one edge mapping. -/
def createEdgeStmt (edge_name : String) (props : List SchemaProperty) : String :=
  "CREATE EDGE IF NOT EXISTS " ++ escape_identifier edge_name ++ " (\n" ++
    String.intercalate ",\n" (props.map schemaPropLine) ++
    "\n) ttl_duration = 0, ttl_col = \"\";"

/-- The `CREATE TAG INDEX` statements for the indexable properties of
one vertex mapping, in declaration order. -/
def tagIndexStmts (tag_name : String) (props : List SchemaProperty) :
    List String :=
  props.filterMap fun p =>
    if p.indexable then
      some ("CREATE TAG INDEX IF NOT EXISTS " ++
        escape_identifier (tag_name ++ "_" ++ p.name ++ "_idx") ++
        " ON " ++ escape_identifier tag_name ++
        "(" ++ escape_identifier p.name ++ ");")
    else none

/-- The `CREATE EDGE INDEX` statements for the indexable properties of
one edge mapping. -/
def edgeIndexStmts (edge_name : String) (props : List SchemaProperty) :
    List String :=
  props.filterMap fun p =>
    if p.indexable then
      some ("CREATE EDGE INDEX IF NOT EXISTS " ++
        escape_identifier (edge_name ++ "_" ++ p.name ++ "_idx") ++
        " ON " ++ escape_identifier edge_name ++
        "(" ++ escape_identifier p.name ++ ");")
    else none

/-- The per-vertex-mapping block of `generate_schema_statements`:
convert the properties, validate the element, then emit the `CREATE
TAG` statement followed by its index statements. -/
def tagSchemaBlock (vm : VertexMapping) : Except SchemaError (List String) := do
  let props ← convertSchemaProps vm.properties
  let _ ← validate_schema_element vm.tag_name props
  .ok (createTagStmt vm.tag_name props :: tagIndexStmts vm.tag_name props)

/-- The per-edge-mapping block of `generate_schema_statements` (the
source performs no element validation on edges). -/
def edgeSchemaBlock (em : EdgeMapping) : Except SchemaError (List String) := do
  let props ← convertSchemaProps em.properties
  .ok (createEdgeStmt em.edge_name props :: edgeIndexStmts em.edge_name props)

/-- Fold the per-mapping schema blocks in declaration order. -/
def runSchemaBlocks {α : Type} (f : α → Except SchemaError (List String)) :
    List α → Except SchemaError (List String)
  | [] => .ok []
  | x :: xs => do
    let s ← f x
    let rest ← runSchemaBlocks f xs
    .ok (s ++ rest)

/-- Model of `SchemaManager::generate_schema_statements`: all tag
blocks in declaration order, then all edge blocks. -/
def generate_schema_statements (mapping : GraphMapping) :
    Except SchemaError (List String) := do
  let tags ← runSchemaBlocks tagSchemaBlock mapping.vertices
  let edges ← runSchemaBlocks edgeSchemaBlock mapping.edges
  .ok (tags ++ edges)

theorem ne_backtick_wrap (s : String) : s ≠ "`" ++ s ++ "`" := by
  intro h
  have hlen : s.length = ("`" ++ s ++ "`").length := by rw [← h]
  rw [String.length_append, String.length_append] at hlen
  have h1 : ("`" : String).length = 1 := rfl
  rw [h1] at hlen
  omega

/-- C1: for every `Value` holding a string payload `s` with `is_null`
false, `format_value` returns exactly a double quote, then `s`
unchanged, then a double quote — no embedded quote or backslash is
escaped or altered (illustrated on a payload containing both). -/
theorem format_value_string_verbatim :
    (∀ (t s : String),
      format_value { nebula_type := t, value := .s s, is_null := false } =
        .ok ("\"" ++ s ++ "\"")) ∧
    format_value { nebula_type := "STRING",
                   value := .s "say \"hi\" \\ bye", is_null := false } =
      .ok "\"say \"hi\" \\ bye\"" := by
  exact ⟨fun t s => rfl, rfl⟩

/-- C4 counterexample: the empty string does not match
`[A-Za-z_][A-Za-z0-9_]*`, yet `quote_identifier` returns it unchanged
and not wrapped in back-ticks, so the claimed equivalence fails for the
empty identifier. -/
theorem quote_identifier_claim_cex :
    matchesIdentPattern "" = false ∧ quote_identifier "" = "" ∧
      quote_identifier "" ≠ "`" ++ "" ++ "`" := by
  refine ⟨rfl, rfl, ?_⟩
  decide

/-- C4 amended: for every nonempty identifier string,
`quote_identifier` wraps it in back-ticks if and only if it does not
match `[A-Za-z_][A-Za-z0-9_]*`, and returns it unchanged when it does;
the empty string is returned unchanged without back-ticks.  In
particular `quote_identifier "valid_name" = "valid_name"` and
`quote_identifier "123bad"` is back-ticked. -/
theorem quote_identifier_amended_spec (identifier : String)
    (hne : identifier ≠ "") :
    (quote_identifier identifier = "`" ++ identifier ++ "`" ↔
      matchesIdentPattern identifier = false) ∧
    (matchesIdentPattern identifier = true →
      quote_identifier identifier = identifier) := by
  have hlist : identifier.toList ≠ [] := by
    intro h
    apply hne
    cases identifier with
    | mk data =>
      simp [String.toList] at h
      simp [h]
  cases hcs : identifier.toList with
  | nil => exact absurd hcs hlist
  | cons c rest =>
    have hneeds : quote_identifier identifier =
        (if (c.isAlpha || c = '_') && rest.all (fun ch => ch.isAlphanum || ch = '_')
          then identifier else "`" ++ identifier ++ "`") := by
      unfold quote_identifier
      rw [hcs]
      by_cases h1 : c.isAlpha || c = '_'
      · by_cases h2 : rest.all fun ch => ch.isAlphanum || ch = '_'
        · simp [h1, h2]
        · simp [h1, h2]
      · simp [h1]
    have hmatch : matchesIdentPattern identifier =
        ((c.isAlpha || c = '_') && rest.all fun ch => ch.isAlphanum || ch = '_') := by
      unfold matchesIdentPattern
      rw [hcs]
    constructor
    · constructor
      · intro h
        rw [hneeds] at h
        by_cases hb : (c.isAlpha || c = '_') &&
            rest.all fun ch => ch.isAlphanum || ch = '_'
        · rw [if_pos hb] at h
          exact absurd h (ne_backtick_wrap identifier)
        · rw [hmatch]
          simp [hb]
      · intro h
        rw [hneeds]
        rw [hmatch] at h
        simp [h]
    · intro h
      rw [hmatch] at h
      rw [hneeds, if_pos h]

/-- C4 amended, witnessed at the claim's own concrete examples. -/
theorem quote_identifier_amended_spec_witness :
    ("valid_name" : String) ≠ "" ∧ ("123bad" : String) ≠ "" ∧
    quote_identifier "valid_name" = "valid_name" ∧
    quote_identifier "123bad" = "`" ++ "123bad" ++ "`" := by
  refine ⟨by decide, by decide, ?_, ?_⟩
  · exact (quote_identifier_amended_spec "valid_name" (by decide)).2 rfl
  · exact ((quote_identifier_amended_spec "123bad" (by decide)).1).mpr rfl

/-- The type names `convert_to_nebula_type` recognizes: the string
family, the `TYPE_MAP` keys, and the canonical `VALID_TYPES`. -/
def recognizedTypeNames : List String :=
  ["STRING", "FIXED_STRING", "VARCHAR", "INT", "INTEGER", "FLOAT", "DOUBLE",
   "BOOL", "BOOLEAN", "TIMESTAMP", "DATE", "TIME", "DATETIME",
   "INT8", "INT16", "INT32", "INT64"]

theorem convertTypeCore_ok_iff (u : String) (l : Nat) (o1 o2 r : String) :
    convertTypeCore u l o1 = .ok r ↔ convertTypeCore u l o2 = .ok r := by
  unfold convertTypeCore
  split
  · exact Iff.rfl
  · split
    · exact Iff.rfl
    · split
      · exact Iff.rfl
      · simp

theorem convert_family_pos (fam : String)
    (hfam : (fam = "STRING" || fam = "FIXED_STRING" || fam = "VARCHAR") = true)
    (hup : toUpperAscii fam = fam) (l : Nat) (h1 : 0 < l) (h2 : l ≤ 65535) :
    convert_to_nebula_type fam l = .ok (fam ++ "(" ++ toString l ++ ")") := by
  unfold convert_to_nebula_type
  rw [hup]
  unfold convertTypeCore
  rw [if_pos hfam]
  simp only [gt_iff_lt, if_pos h1, if_neg (show ¬65535 < l by omega)]

theorem convert_family_big (fam : String)
    (hfam : (fam = "STRING" || fam = "FIXED_STRING" || fam = "VARCHAR") = true)
    (hup : toUpperAscii fam = fam) (l : Nat) (h2 : 65535 < l) :
    ∃ e, convert_to_nebula_type fam l = .error e := by
  unfold convert_to_nebula_type
  rw [hup]
  unfold convertTypeCore
  rw [if_pos hfam]
  simp only [gt_iff_lt, if_pos (show 0 < l by omega), if_pos h2]
  exact ⟨_, rfl⟩

theorem convert_unrecognized (t : String) (l : Nat)
    (h : toUpperAscii t ∉ recognizedTypeNames) :
    ∃ e, convert_to_nebula_type t l = .error e := by
  simp only [recognizedTypeNames, List.mem_cons, not_or] at h
  obtain ⟨n1, n2, n3, n4, n5, n6, n7, n8, n9, n10, n11, n12, n13, n14, n15,
    n16, n17, -⟩ := h
  unfold convert_to_nebula_type convertTypeCore
  rw [if_neg (by simp [n1, n2, n3])]
  unfold schemaTypeMap
  simp only [if_neg n4, if_neg n5, if_neg n6, if_neg n7, if_neg n8, if_neg n9,
    if_neg n10, if_neg n11, if_neg n12, if_neg n13]
  rw [if_neg (by simp [schemaValidTypes, n1, n2, n4, n6, n7, n8, n10, n11,
    n12, n13, n14, n15, n16, n17])]
  exact ⟨_, rfl⟩

/-- C6: `convert_to_nebula_type` is case-insensitive (two spellings with
the same uppercasing produce the same successful results); `INT` and
`INTEGER` map to `INT64`, `FLOAT` to `DOUBLE`, `BOOL` and `BOOLEAN` to
`BOOL`; `TIMESTAMP`/`DATE`/`TIME`/`DATETIME` pass through; the string
family renders as `<NAME>(<length>)` with defaults 256
(`STRING`/`VARCHAR`) and 32 (`FIXED_STRING`) when no positive length is
supplied; `convert_to_nebula_type "string" 300 = STRING(300)`; any
string length above 65535 is an error; and an unrecognized type name is
an error. -/
theorem convert_to_nebula_type_spec :
    (∀ (t1 t2 : String) (l : Nat) (r : String),
      toUpperAscii t1 = toUpperAscii t2 →
      (convert_to_nebula_type t1 l = .ok r ↔
        convert_to_nebula_type t2 l = .ok r)) ∧
    (∀ l : Nat, convert_to_nebula_type "INT" l = .ok "INT64" ∧
      convert_to_nebula_type "INTEGER" l = .ok "INT64") ∧
    (∀ l : Nat, convert_to_nebula_type "FLOAT" l = .ok "DOUBLE") ∧
    (∀ l : Nat, convert_to_nebula_type "BOOL" l = .ok "BOOL" ∧
      convert_to_nebula_type "BOOLEAN" l = .ok "BOOL") ∧
    (∀ l : Nat, convert_to_nebula_type "TIMESTAMP" l = .ok "TIMESTAMP" ∧
      convert_to_nebula_type "DATE" l = .ok "DATE" ∧
      convert_to_nebula_type "TIME" l = .ok "TIME" ∧
      convert_to_nebula_type "DATETIME" l = .ok "DATETIME") ∧
    (convert_to_nebula_type "STRING" 0 = .ok "STRING(256)" ∧
      convert_to_nebula_type "VARCHAR" 0 = .ok "VARCHAR(256)" ∧
      convert_to_nebula_type "FIXED_STRING" 0 = .ok "FIXED_STRING(32)") ∧
    (∀ l : Nat, 0 < l → l ≤ 65535 →
      convert_to_nebula_type "STRING" l =
        .ok ("STRING(" ++ toString l ++ ")") ∧
      convert_to_nebula_type "FIXED_STRING" l =
        .ok ("FIXED_STRING(" ++ toString l ++ ")") ∧
      convert_to_nebula_type "VARCHAR" l =
        .ok ("VARCHAR(" ++ toString l ++ ")")) ∧
    (convert_to_nebula_type "string" 300 = .ok "STRING(300)") ∧
    (∀ l : Nat, 65535 < l →
      (∃ e, convert_to_nebula_type "STRING" l = .error e) ∧
      (∃ e, convert_to_nebula_type "FIXED_STRING" l = .error e) ∧
      (∃ e, convert_to_nebula_type "VARCHAR" l = .error e)) ∧
    (∀ (t : String) (l : Nat), toUpperAscii t ∉ recognizedTypeNames →
      ∃ e, convert_to_nebula_type t l = .error e) ∧
    (∃ e, convert_to_nebula_type "unknown_type" 256 = .error e) := by
  refine ⟨?_, fun l => ⟨rfl, rfl⟩, fun l => rfl, fun l => ⟨rfl, rfl⟩,
    fun l => ⟨rfl, rfl, rfl, rfl⟩, ⟨rfl, rfl, rfl⟩, ?_, rfl, ?_, ?_, ⟨_, rfl⟩⟩
  · intro t1 t2 l r h
    unfold convert_to_nebula_type
    rw [h]
    exact convertTypeCore_ok_iff _ _ _ _ _
  · intro l h1 h2
    exact ⟨convert_family_pos "STRING" (by decide) (by decide) l h1 h2,
      convert_family_pos "FIXED_STRING" (by decide) (by decide) l h1 h2,
      convert_family_pos "VARCHAR" (by decide) (by decide) l h1 h2⟩
  · intro l h2
    exact ⟨convert_family_big "STRING" (by decide) (by decide) l h2,
      convert_family_big "FIXED_STRING" (by decide) (by decide) l h2,
      convert_family_big "VARCHAR" (by decide) (by decide) l h2⟩
  · exact convert_unrecognized

/-- C6 witnessed at the claim's concrete examples. -/
theorem convert_to_nebula_type_spec_witness :
    ((0 : Nat) < 300 ∧ (300 : Nat) ≤ 65535 ∧ (65535 : Nat) < 100000 ∧
      toUpperAscii "unknown_type" ∉ recognizedTypeNames) ∧
    convert_to_nebula_type "STRING" 300 = .ok "STRING(300)" ∧
    (∃ e, convert_to_nebula_type "STRING" 100000 = .error e) ∧
    (∃ e, convert_to_nebula_type "unknown_type" 77 = .error e) := by
  refine ⟨⟨by decide, by decide, by decide, by decide⟩, ?_, ?_, ?_⟩
  · exact (convert_to_nebula_type_spec.2.2.2.2.2.2.1 300 (by decide)
      (by decide)).1
  · exact (convert_to_nebula_type_spec.2.2.2.2.2.2.2.2.1 100000 (by decide)).1
  · exact convert_to_nebula_type_spec.2.2.2.2.2.2.2.2.2.1 "unknown_type" 77
      (by decide)

/-- C7: a property whose path resolves to JSON null yields a `Value`
with `is_null` set, independently of any attached transform (none is
applied) and of the declared type (no conversion is attempted), and
`format_value` renders that `Value` as the bare literal `NULL`. -/
theorem extract_null_value_spec (d : Json) (p t : String)
    (tr : Option Transform) (h : resolvePath d p = .ok .null) :
    extract_value d p t tr =
      .ok { nebula_type := t, value := .s "", is_null := true } ∧
    format_value { nebula_type := t, value := .s "", is_null := true } =
      .ok "NULL" := by
  refine ⟨?_, rfl⟩
  unfold extract_value
  rw [h]
  rfl

/-- C7 witnessed on a concrete document, with a transform attached to
show it is not applied. -/
theorem extract_null_value_spec_witness :
    resolvePath (Json.obj [("x", Json.null)]) "x" = .ok .null ∧
    extract_value (Json.obj [("x", Json.null)]) "x" "STRING"
        (some ⟨"price_normalize", []⟩) =
      .ok { nebula_type := "STRING", value := .s "", is_null := true } ∧
    format_value { nebula_type := "STRING", value := .s "", is_null := true } =
      .ok "NULL" :=
  ⟨rfl,
    (extract_null_value_spec (Json.obj [("x", Json.null)]) "x" "STRING"
      (some ⟨"price_normalize", []⟩) rfl).1,
    (extract_null_value_spec (Json.obj [("x", Json.null)]) "x" "STRING"
      (some ⟨"price_normalize", []⟩) rfl).2⟩

/-- C9: the `price_normalize` transform keeps exactly the decimal digits
of its input string and parses them as an integer; it fails when the
stripped string is empty (and when the digits overflow `int64`,
reflecting `std::stoll`'s range check). -/
theorem price_normalize_spec :
    (∀ (s : String) (ps : List (String × String)),
      s.toList.filter Char.isDigit ≠ [] →
      digitsToNat (s.toList.filter Char.isDigit) ≤ 2 ^ 63 - 1 →
      apply_transform "price_normalize" ⟨.s s, "STRING", "INT64"⟩ ps =
        .ok ⟨.i (digitsToNat (s.toList.filter Char.isDigit)),
          "STRING", "INT64"⟩) ∧
    (∀ (s : String) (ps : List (String × String)),
      s.toList.filter Char.isDigit = [] →
      ∃ e, apply_transform "price_normalize" ⟨.s s, "STRING", "INT64"⟩ ps =
        .error e) := by
  constructor
  · intro s ps h1 h2
    have hstep : apply_transform "price_normalize" ⟨.s s, "STRING", "INT64"⟩ ps =
        price_transform ⟨.s s, "STRING", "INT64"⟩ ps := rfl
    rw [hstep]
    have hpp : parse_price s =
        .ok ((digitsToNat (s.toList.filter Char.isDigit) : Int)) := by
      unfold parse_price
      rw [if_neg (by simpa using h1), if_pos h2]
    unfold price_transform
    simp only [convert_value_string]
    rw [hpp]
    rfl
  · intro s ps h1
    have hstep : apply_transform "price_normalize" ⟨.s s, "STRING", "INT64"⟩ ps =
        price_transform ⟨.s s, "STRING", "INT64"⟩ ps := rfl
    rw [hstep]
    have hpp : ∃ e, parse_price s = .error e := by
      unfold parse_price
      rw [if_pos (by simpa using h1)]
      exact ⟨_, rfl⟩
    obtain ⟨e, he⟩ := hpp
    unfold price_transform
    simp only [convert_value_string]
    rw [he]
    exact ⟨e, rfl⟩

/-- C9 witnessed at the claim's example `"$1,234.56" ↦ 123456` and at an
all-symbols input that fails. -/
theorem price_normalize_spec_witness :
    ("$1,234.56".toList.filter Char.isDigit ≠ [] ∧
      digitsToNat ("$1,234.56".toList.filter Char.isDigit) ≤ 2 ^ 63 - 1 ∧
      "$$".toList.filter Char.isDigit = []) ∧
    apply_transform "price_normalize" ⟨.s "$1,234.56", "STRING", "INT64"⟩ [] =
      .ok ⟨.i 123456, "STRING", "INT64"⟩ ∧
    (∃ e, apply_transform "price_normalize" ⟨.s "$$", "STRING", "INT64"⟩ [] =
      .error e) := by
  refine ⟨⟨by decide, by decide, by decide⟩, ?_, ?_⟩
  · exact price_normalize_spec.1 "$1,234.56" [] (by decide) (by decide)
  · exact price_normalize_spec.2 "$$" [] (by decide)

theorem except_bind_ok {ε α β : Type} (a : α) (f : α → Except ε β) :
    (Except.ok a >>= f) = f a := rfl

theorem except_bind_err {ε α β : Type} (e : ε) (f : α → Except ε β) :
    (Except.error e >>= f : Except ε β) = Except.error e := rfl

theorem runSchemaBlocks_mem {α : Type} (f : α → Except SchemaError (List String))
    (xs : List α) (stmts : List String) (h : runSchemaBlocks f xs = .ok stmts)
    (x : α) (hx : x ∈ xs) :
    ∃ sub, f x = .ok sub ∧ ∀ y ∈ sub, y ∈ stmts := by
  induction xs generalizing stmts with
  | nil => simp at hx
  | cons a as ih =>
    unfold runSchemaBlocks at h
    cases hfa : f a with
    | error e => rw [hfa, except_bind_err] at h; cases h
    | ok s =>
      rw [hfa, except_bind_ok] at h
      cases hrest : runSchemaBlocks f as with
      | error e => rw [hrest, except_bind_err] at h; cases h
      | ok rest =>
        rw [hrest, except_bind_ok] at h
        cases h
        rcases List.mem_cons.mp hx with h1 | h2
        · subst h1
          exact ⟨s, hfa, fun y hy => List.mem_append_left _ hy⟩
        · obtain ⟨sub, hsub, hmem⟩ := ih rest hrest h2
          exact ⟨sub, hsub, fun y hy => List.mem_append_right _ (hmem y hy)⟩

theorem convertSchemaProps_correspond (ps : List Property)
    (sps : List SchemaProperty) (h : convertSchemaProps ps = .ok sps) :
    List.Forall₂ (fun (p : Property) (sp : SchemaProperty) =>
      sp.name = p.name ∧ sp.indexable = p.indexable) ps sps := by
  induction ps generalizing sps with
  | nil =>
    unfold convertSchemaProps at h
    cases h
    exact .nil
  | cons p rest ih =>
    unfold convertSchemaProps at h
    cases hc : convert_to_nebula_type p.nebula_type 256 with
    | error e => rw [hc, except_bind_err] at h; cases h
    | ok t =>
      rw [hc, except_bind_ok] at h
      cases hr : convertSchemaProps rest with
      | error e => rw [hr, except_bind_err] at h; cases h
      | ok rsp =>
        rw [hr, except_bind_ok] at h
        cases h
        exact .cons ⟨rfl, rfl⟩ (ih rsp hr)

theorem forall2_mem_left {α β : Type} {R : α → β → Prop} {l1 : List α}
    {l2 : List β} (h : List.Forall₂ R l1 l2) {a : α} (ha : a ∈ l1) :
    ∃ b ∈ l2, R a b := by
  induction h with
  | nil => simp at ha
  | cons hr _ ih =>
    rcases List.mem_cons.mp ha with h1 | h2
    · subst h1
      exact ⟨_, List.mem_cons_self _ _, hr⟩
    · obtain ⟨b, hb, hrb⟩ := ih h2
      exact ⟨b, List.mem_cons_of_mem _ hb, hrb⟩

theorem tagSchemaBlock_ok (vm : VertexMapping) (sub : List String)
    (h : tagSchemaBlock vm = .ok sub) :
    ∃ props, convertSchemaProps vm.properties = .ok props ∧
      sub = createTagStmt vm.tag_name props ::
        tagIndexStmts vm.tag_name props := by
  unfold tagSchemaBlock at h
  cases hc : convertSchemaProps vm.properties with
  | error e => rw [hc, except_bind_err] at h; cases h
  | ok props =>
    rw [hc, except_bind_ok] at h
    cases hv : validate_schema_element vm.tag_name props with
    | error e => rw [hv, except_bind_err] at h; cases h
    | ok u =>
      rw [hv, except_bind_ok] at h
      cases h
      exact ⟨props, rfl, rfl⟩

theorem edgeSchemaBlock_ok (em : EdgeMapping) (sub : List String)
    (h : edgeSchemaBlock em = .ok sub) :
    ∃ props, convertSchemaProps em.properties = .ok props ∧
      sub = createEdgeStmt em.edge_name props ::
        edgeIndexStmts em.edge_name props := by
  unfold edgeSchemaBlock at h
  cases hc : convertSchemaProps em.properties with
  | error e => rw [hc, except_bind_err] at h; cases h
  | ok props =>
    rw [hc, except_bind_ok] at h
    cases h
    exact ⟨props, rfl, rfl⟩

theorem tagIndexStmts_mem (tag : String) (sps : List SchemaProperty)
    (sp : SchemaProperty) (hsp : sp ∈ sps) (hidx : sp.indexable = true) :
    ("CREATE TAG INDEX IF NOT EXISTS " ++
      escape_identifier (tag ++ "_" ++ sp.name ++ "_idx") ++ " ON " ++
      escape_identifier tag ++ "(" ++ escape_identifier sp.name ++ ");") ∈
      tagIndexStmts tag sps := by
  unfold tagIndexStmts
  rw [List.mem_filterMap]
  refine ⟨sp, hsp, ?_⟩
  rw [hidx]
  simp

theorem edgeIndexStmts_mem (ename : String) (sps : List SchemaProperty)
    (sp : SchemaProperty) (hsp : sp ∈ sps) (hidx : sp.indexable = true) :
    ("CREATE EDGE INDEX IF NOT EXISTS " ++
      escape_identifier (ename ++ "_" ++ sp.name ++ "_idx") ++ " ON " ++
      escape_identifier ename ++ "(" ++ escape_identifier sp.name ++ ");") ∈
      edgeIndexStmts ename sps := by
  unfold edgeIndexStmts
  rw [List.mem_filterMap]
  refine ⟨sp, hsp, ?_⟩
  rw [hidx]
  simp

theorem generate_schema_ok_split (m : GraphMapping) (stmts : List String)
    (h : generate_schema_statements m = .ok stmts) :
    ∃ tags edges, runSchemaBlocks tagSchemaBlock m.vertices = .ok tags ∧
      runSchemaBlocks edgeSchemaBlock m.edges = .ok edges ∧
      stmts = tags ++ edges := by
  unfold generate_schema_statements at h
  cases ht : runSchemaBlocks tagSchemaBlock m.vertices with
  | error e => rw [ht, except_bind_err] at h; cases h
  | ok tags =>
    rw [ht, except_bind_ok] at h
    cases he : runSchemaBlocks edgeSchemaBlock m.edges with
    | error e => rw [he, except_bind_err] at h; cases h
    | ok edges =>
      rw [he, except_bind_ok] at h
      cases h
      exact ⟨tags, edges, rfl, rfl, rfl⟩

/-- C10: schema DDL wraps every identifier unconditionally in back-ticks
through `escape_identifier` — every successful `generate_schema_statements`
run contains, for each vertex mapping, a `CREATE TAG` statement whose
tag identifier is escaped, and for each indexable property a `CREATE
TAG INDEX` statement whose index, element and property identifiers are
all escaped (and likewise for edges) — whereas statement generation's
`quote_identifier` leaves an identifier that matches
`[A-Za-z_][A-Za-z0-9_]*` bare. -/
theorem schema_identifiers_unconditionally_escaped :
    (∀ name : String, escape_identifier name = "`" ++ name ++ "`") ∧
    (∀ (m : GraphMapping) (stmts : List String),
      generate_schema_statements m = .ok stmts →
      (∀ vm ∈ m.vertices,
        (∃ rest, ("CREATE TAG IF NOT EXISTS " ++
          escape_identifier vm.tag_name ++ " (\n" ++ rest) ∈ stmts) ∧
        (∀ p ∈ vm.properties, p.indexable = true →
          ("CREATE TAG INDEX IF NOT EXISTS " ++
            escape_identifier (vm.tag_name ++ "_" ++ p.name ++ "_idx") ++
            " ON " ++ escape_identifier vm.tag_name ++ "(" ++
            escape_identifier p.name ++ ");") ∈ stmts)) ∧
      (∀ em ∈ m.edges,
        (∃ rest, ("CREATE EDGE IF NOT EXISTS " ++
          escape_identifier em.edge_name ++ " (\n" ++ rest) ∈ stmts) ∧
        (∀ p ∈ em.properties, p.indexable = true →
          ("CREATE EDGE INDEX IF NOT EXISTS " ++
            escape_identifier (em.edge_name ++ "_" ++ p.name ++ "_idx") ++
            " ON " ++ escape_identifier em.edge_name ++ "(" ++
            escape_identifier p.name ++ ");") ∈ stmts))) ∧
    (∀ name : String, matchesIdentPattern name = true →
      quote_identifier name = name) := by
  refine ⟨fun name => rfl, ?_, ?_⟩
  · intro m stmts hgen
    obtain ⟨tags, edges, ht, he, hsplit⟩ := generate_schema_ok_split m stmts hgen
    subst hsplit
    constructor
    · intro vm hvm
      obtain ⟨sub, hsub, hmem⟩ := runSchemaBlocks_mem _ _ _ ht vm hvm
      obtain ⟨props, hprops, hsubeq⟩ := tagSchemaBlock_ok vm sub hsub
      subst hsubeq
      constructor
      · refine ⟨String.intercalate ",\n" (props.map schemaPropLine) ++
          "\n) ttl_duration = 0, ttl_col = \"\";", ?_⟩
        have hin : createTagStmt vm.tag_name props ∈ tags :=
          hmem _ (List.mem_cons_self _ _)
        have heq : createTagStmt vm.tag_name props =
            "CREATE TAG IF NOT EXISTS " ++ escape_identifier vm.tag_name ++
              " (\n" ++ (String.intercalate ",\n" (props.map schemaPropLine) ++
              "\n) ttl_duration = 0, ttl_col = \"\";") := by
          unfold createTagStmt
          rw [String.append_assoc]
        rw [← heq]
        exact List.mem_append_left _ hin
      · intro p hp hidx
        have hcor := convertSchemaProps_correspond vm.properties props hprops
        obtain ⟨sp, hspmem, hname, hspidx⟩ := forall2_mem_left hcor hp
        have := tagIndexStmts_mem vm.tag_name props sp hspmem
          (by rw [hspidx, hidx])
        rw [hname] at this
        exact List.mem_append_left _
          (hmem _ (List.mem_cons_of_mem _ this))
    · intro em hem
      obtain ⟨sub, hsub, hmem⟩ := runSchemaBlocks_mem _ _ _ he em hem
      obtain ⟨props, hprops, hsubeq⟩ := edgeSchemaBlock_ok em sub hsub
      subst hsubeq
      constructor
      · refine ⟨String.intercalate ",\n" (props.map schemaPropLine) ++
          "\n) ttl_duration = 0, ttl_col = \"\";", ?_⟩
        have hin : createEdgeStmt em.edge_name props ∈ edges :=
          hmem _ (List.mem_cons_self _ _)
        have heq : createEdgeStmt em.edge_name props =
            "CREATE EDGE IF NOT EXISTS " ++ escape_identifier em.edge_name ++
              " (\n" ++ (String.intercalate ",\n" (props.map schemaPropLine) ++
              "\n) ttl_duration = 0, ttl_col = \"\";") := by
          unfold createEdgeStmt
          rw [String.append_assoc]
        rw [← heq]
        exact List.mem_append_right _ hin
      · intro p hp hidx
        have hcor := convertSchemaProps_correspond em.properties props hprops
        obtain ⟨sp, hspmem, hname, hspidx⟩ := forall2_mem_left hcor hp
        have := edgeIndexStmts_mem em.edge_name props sp hspmem
          (by rw [hspidx, hidx])
        rw [hname] at this
        exact List.mem_append_right _
          (hmem _ (List.mem_cons_of_mem _ this))
  · intro name h
    unfold quote_identifier
    unfold matchesIdentPattern at h
    cases hcs : name.toList with
    | nil => rfl
    | cons c rest =>
      rw [hcs] at h
      have h' : ((c.isAlpha || c = '_') &&
          rest.all fun ch => ch.isAlphanum || ch = '_') = true := h
      simp only [Bool.and_eq_true] at h'
      simp [h'.1, h'.2]

/-- The one (indexable) property of the demo mapping. -/
def demoSchemaProp : Property :=
  { name := "age", json_path := "age", nebula_type := "int",
    indexable := true }

/-- A small fully valid mapping used to witness the schema-generation
theorems on a concrete run. -/
def demoSchemaVM : VertexMapping :=
  { tag_name := "person", source_path := "people", key_path := "id",
    properties := [demoSchemaProp] }

/-- The vertex-only demo mapping. -/
def demoSchemaMapping : GraphMapping := ⟨[demoSchemaVM], []⟩

/-- The statements `generate_schema_statements` produces for the demo
mapping. -/
def demoSchemaStmts : List String :=
  ["CREATE TAG IF NOT EXISTS `person` (\n    `age` INT64 NOT NULL\n) ttl_duration = 0, ttl_col = \"\";",
   "CREATE TAG INDEX IF NOT EXISTS `person_age_idx` ON `person`(`age`);"]

set_option maxHeartbeats 1000000 in
/-- C10 witnessed on the demo mapping: the emitted tag and index
statements carry the back-ticked identifiers even though `person` and
`age` match the bare-identifier pattern. -/
theorem schema_identifiers_unconditionally_escaped_witness :
    generate_schema_statements demoSchemaMapping = .ok demoSchemaStmts ∧
    (∃ rest, ("CREATE TAG IF NOT EXISTS " ++ escape_identifier "person" ++
      " (\n" ++ rest) ∈ demoSchemaStmts) ∧
    ("CREATE TAG INDEX IF NOT EXISTS " ++
      escape_identifier "person_age_idx" ++ " ON " ++
      escape_identifier "person" ++ "(" ++ escape_identifier "age" ++ ");") ∈
      demoSchemaStmts := by
  have hgen : generate_schema_statements demoSchemaMapping =
      .ok demoSchemaStmts := by exact rfl
  have happ := (schema_identifiers_unconditionally_escaped.2.1
    demoSchemaMapping demoSchemaStmts hgen).1 demoSchemaVM
    (List.mem_cons_self _ _)
  refine ⟨hgen, happ.1, ?_⟩
  have hp : demoSchemaProp ∈ demoSchemaVM.properties :=
    List.mem_cons_self _ _
  exact happ.2 demoSchemaProp hp rfl

/-- C3: with `dynamic_fields.enabled`, two records that resolve to the
same vertex id for the same tag produce exactly one `UPSERT VERTEX`
statement: the first occurrence is processed, the duplicate is silently
skipped (its properties are never extracted), and no error is
raised. -/
theorem dynamic_dedup_single_upsert (vm : VertexMapping) (d : Json)
    (B : Nat) (r1 r2 : Json) (id : String) (vals : List String)
    (h_en : vm.dynamic_fields.enabled = true)
    (hrec : get_array_or_single d vm.source_path = .ok [r1, r2])
    (h1 : get_vertex_id r1 vm.key_path = .ok id)
    (h2 : get_vertex_id r2 vm.key_path = .ok id)
    (hvals : formatProps r1 vm.properties = .ok vals) :
    generate_batch_statements ⟨[vm], []⟩ d B =
      .ok [upsertVertexStmt vm.tag_name id
        (vm.properties.map fun p => quote_identifier p.name) vals] := by
  have hloop : vertexLoop vm
      (vm.properties.map fun p => quote_identifier p.name) B [r1, r2] [] [] =
      .ok ([upsertVertexStmt vm.tag_name id
        (vm.properties.map fun p => quote_identifier p.name) vals],
        [], [id]) := by
    unfold vertexLoop
    rw [h1]
    simp only [except_bind_ok, h_en, Bool.true_and, List.contains]
    rw [hvals]
    simp only [except_bind_ok]
    have hloop2 : vertexLoop vm
        (List.map (fun p => quote_identifier p.name) vm.properties) B [r2] []
        [id] = .ok ([], [], [id]) := by
      unfold vertexLoop
      rw [h2]
      simp only [except_bind_ok, h_en, Bool.true_and]
      have hc : [id].contains id = true := by simp
      rw [hc]
      rfl
    simp only [List.elem_nil, if_true, if_false]
    rw [hloop2]
    rfl
  unfold generate_batch_statements runVertexMappings processVertexMapping
  rw [hrec]
  simp only [except_bind_ok]
  have hinit : (alookup ([] : List (String × List String)) vm.tag_name).getD []
      = [] := rfl
  rw [hinit, hloop]
  simp only [except_bind_ok]
  rw [h_en]
  rfl

/-- The single declared property of the dynamic-fields demo mapping. -/
def dynDemoProp : Property :=
  { name := "name", json_path := "name", nebula_type := "string" }

/-- A dynamic-fields vertex mapping for the C3 witness. -/
def dynDemoVM : VertexMapping :=
  { tag_name := "tag", source_path := "items", key_path := "id",
    properties := [dynDemoProp],
    dynamic_fields := { enabled := true } }

/-- First demo record: id `v1`, name `X`. -/
def dynDemoRec1 : Json :=
  Json.obj [("id", Json.str "v1"), ("name", Json.str "X")]

/-- Second demo record: the same id `v1`, different name. -/
def dynDemoRec2 : Json :=
  Json.obj [("id", Json.str "v1"), ("name", Json.str "Y")]

/-- The demo document holding both records. -/
def dynDemoDoc : Json :=
  Json.obj [("items", Json.arr [dynDemoRec1, dynDemoRec2])]

/-- C3 witnessed on a concrete two-record document with a duplicated
id: exactly one `UPSERT` comes out. -/
theorem dynamic_dedup_single_upsert_witness :
    (dynDemoVM.dynamic_fields.enabled = true ∧
      get_array_or_single dynDemoDoc dynDemoVM.source_path =
        .ok [dynDemoRec1, dynDemoRec2] ∧
      get_vertex_id dynDemoRec1 dynDemoVM.key_path = .ok "\"v1\"" ∧
      get_vertex_id dynDemoRec2 dynDemoVM.key_path = .ok "\"v1\"" ∧
      formatProps dynDemoRec1 dynDemoVM.properties = .ok ["\"X\""]) ∧
    generate_batch_statements ⟨[dynDemoVM], []⟩ dynDemoDoc 500 =
      .ok [upsertVertexStmt dynDemoVM.tag_name "\"v1\""
        (dynDemoVM.properties.map fun p => quote_identifier p.name)
        ["\"X\""]] :=
  ⟨⟨rfl, rfl, rfl, rfl, rfl⟩,
    dynamic_dedup_single_upsert dynDemoVM dynDemoDoc 500 dynDemoRec1
      dynDemoRec2 "\"v1\"" ["\"X\""] rfl rfl rfl rfl rfl⟩

/-- One unfolding step of `vertexLoop` on a non-empty record list,
stated so that specific occurrences can be rewritten. -/
theorem vertexLoop_cons (vm : VertexMapping) (pn : List String) (B : Nat)
    (r : Json) (records : List Json) (batch processed : List String) :
    vertexLoop vm pn B (r :: records) batch processed = (do
      let id_str ← get_vertex_id r vm.key_path
      if vm.dynamic_fields.enabled && processed.contains id_str then
        vertexLoop vm pn B records batch processed
      else
        let processed' :=
          if vm.dynamic_fields.enabled then id_str :: processed else processed
        let prop_values ← formatProps r vm.properties
        if vm.dynamic_fields.enabled then
          let stmt := upsertVertexStmt vm.tag_name id_str pn prop_values
          let (stmts, b, pr) ← vertexLoop vm pn B records batch processed'
          .ok (stmt :: stmts, b, pr)
        else
          let batch' := batch ++ [vertexTupleStr id_str prop_values]
          if B ≤ batch'.length then
            let (stmts, b, pr) ← vertexLoop vm pn B records [] processed'
            .ok (insertVertexStmt vm.tag_name pn batch' :: stmts, b, pr)
          else
            vertexLoop vm pn B records batch' processed') := rfl

theorem vertexLoop_append (vm : VertexMapping) (pn : List String) (B : Nat)
    (rs1 rs2 : List Json) (batch processed : List String) :
    vertexLoop vm pn B (rs1 ++ rs2) batch processed =
      match vertexLoop vm pn B rs1 batch processed with
      | .error e => .error e
      | .ok (s1, b1, p1) =>
        match vertexLoop vm pn B rs2 b1 p1 with
        | .error e => .error e
        | .ok (s2, b2, p2) => .ok (s1 ++ s2, b2, p2) := by
  induction rs1 generalizing batch processed with
  | nil =>
    simp only [List.nil_append]
    cases h : vertexLoop vm pn B rs2 batch processed with
    | error e => simp [vertexLoop, h]
    | ok t =>
      obtain ⟨s2, b2, p2⟩ := t
      simp [vertexLoop, h]
  | cons r rs ih =>
    simp only [List.cons_append, vertexLoop_cons]
    cases hid : get_vertex_id r vm.key_path with
    | error e => simp [except_bind_err]
    | ok id =>
      simp only [except_bind_ok]
      by_cases hskip : (vm.dynamic_fields.enabled && processed.contains id) = true
      · simp only [if_pos hskip]
        exact ih batch processed
      · simp only [if_neg hskip]
        cases hfp : formatProps r vm.properties with
        | error e => simp [except_bind_err]
        | ok vals =>
          simp only [except_bind_ok]
          by_cases hdyn : vm.dynamic_fields.enabled = true
          · simp only [if_pos hdyn]
            rw [ih batch (id :: processed)]
            cases h1 : vertexLoop vm pn B rs batch (id :: processed) with
            | error e => rfl
            | ok t1 =>
              obtain ⟨s1, b1, p1⟩ := t1
              dsimp only [except_bind_ok]
              cases h2 : vertexLoop vm pn B rs2 b1 p1 with
              | error e => rfl
              | ok t2 =>
                obtain ⟨s2, b2, p2⟩ := t2
                rfl
          · simp only [if_neg hdyn]
            by_cases hflush : B ≤ (batch ++ [vertexTupleStr id vals]).length
            · simp only [if_pos hflush]
              rw [ih [] processed]
              cases h1 : vertexLoop vm pn B rs [] processed with
              | error e => rfl
              | ok t1 =>
                obtain ⟨s1, b1, p1⟩ := t1
                dsimp only [except_bind_ok]
                cases h2 : vertexLoop vm pn B rs2 b1 p1 with
                | error e => rfl
                | ok t2 =>
                  obtain ⟨s2, b2, p2⟩ := t2
                  rfl
            · simp only [if_pos hflush, if_neg hflush]
              exact ih (batch ++ [vertexTupleStr id vals]) processed

theorem runVertexMappings_cons (d : Json) (B : Nat) (vm : VertexMapping)
    (vms : List VertexMapping) (pm : List (String × List String)) :
    runVertexMappings d B (vm :: vms) pm = (do
      let (stmts, pm') ← processVertexMapping d B pm vm
      let (rest, pm'') ← runVertexMappings d B vms pm'
      .ok (stmts ++ rest, pm'')) := rfl

theorem runEdgeMappings_cons (d : Json) (B : Nat) (em : EdgeMapping)
    (ems : List EdgeMapping) :
    runEdgeMappings d B (em :: ems) = (do
      let stmts ← processEdgeMapping d B em
      let rest ← runEdgeMappings d B ems
      .ok (stmts ++ rest)) := rfl

theorem runVertexMappings_append (d : Json) (B : Nat)
    (l1 l2 : List VertexMapping) (pm : List (String × List String)) :
    runVertexMappings d B (l1 ++ l2) pm =
      match runVertexMappings d B l1 pm with
      | .error e => .error e
      | .ok (s1, pm1) =>
        match runVertexMappings d B l2 pm1 with
        | .error e => .error e
        | .ok (s2, pm2) => .ok (s1 ++ s2, pm2) := by
  induction l1 generalizing pm with
  | nil =>
    simp only [List.nil_append]
    cases h : runVertexMappings d B l2 pm with
    | error e => simp [runVertexMappings, h]
    | ok t =>
      obtain ⟨s2, pm2⟩ := t
      simp [runVertexMappings, h]
  | cons vm vms ih =>
    simp only [List.cons_append, runVertexMappings_cons]
    cases hp : processVertexMapping d B pm vm with
    | error e => simp [except_bind_err]
    | ok t =>
      obtain ⟨s1, pm1⟩ := t
      simp only [except_bind_ok]
      rw [ih pm1]
      cases h1 : runVertexMappings d B vms pm1 with
      | error e => rfl
      | ok t1 =>
        obtain ⟨s2, pm2⟩ := t1
        dsimp only [except_bind_ok]
        cases h2 : runVertexMappings d B l2 pm2 with
        | error e => rfl
        | ok t2 =>
          obtain ⟨s3, pm3⟩ := t2
          simp [except_bind_ok, List.append_assoc]

theorem runEdgeMappings_append (d : Json) (B : Nat)
    (l1 l2 : List EdgeMapping) :
    runEdgeMappings d B (l1 ++ l2) =
      match runEdgeMappings d B l1 with
      | .error e => .error e
      | .ok s1 =>
        match runEdgeMappings d B l2 with
        | .error e => .error e
        | .ok s2 => .ok (s1 ++ s2) := by
  induction l1 with
  | nil =>
    simp only [List.nil_append]
    cases h : runEdgeMappings d B l2 with
    | error e => simp [runEdgeMappings, h]
    | ok s2 => simp [runEdgeMappings, h]
  | cons em ems ih =>
    simp only [List.cons_append, runEdgeMappings_cons]
    cases hp : processEdgeMapping d B em with
    | error e => simp [except_bind_err]
    | ok s1 =>
      simp only [except_bind_ok]
      rw [ih]
      cases h1 : runEdgeMappings d B ems with
      | error e => rfl
      | ok s2 =>
        dsimp only [except_bind_ok]
        cases h2 : runEdgeMappings d B l2 with
        | error e => rfl
        | ok s3 => simp [except_bind_ok, List.append_assoc]

/-- C5: `generate_batch_statements` is all-or-nothing.  (1) If the
vertex mappings before `vm` process successfully and `vm`'s processing
fails with `e`, the whole call returns exactly `.error e` — the
statements `pre` already built for earlier mappings are not returned.
(2) Inside one vertex mapping, if the records before `r` process
successfully and processing `r` fails with `e` (key resolution,
property extraction, transform, or formatting), the mapping's
processing returns exactly `.error e` — tuples and statements built for
earlier records are dropped.  (3) If all vertex mappings succeed and an
edge mapping fails after earlier edge mappings succeeded, the whole
call returns exactly that error.  `Except` has no constructor carrying
both statements and an error, so no partial output can be returned. -/
theorem generate_all_or_nothing :
    (∀ (m : GraphMapping) (d : Json) (B : Nat)
      (vms1 : List VertexMapping) (vm : VertexMapping)
      (vms2 : List VertexMapping) (pre : List String)
      (pm : List (String × List String)) (e : StatementError),
      m.vertices = vms1 ++ vm :: vms2 →
      runVertexMappings d B vms1 [] = .ok (pre, pm) →
      processVertexMapping d B pm vm = .error e →
      generate_batch_statements m d B = .error e) ∧
    (∀ (vm : VertexMapping) (d : Json) (B : Nat)
      (pm : List (String × List String)) (records : List Json)
      (rs1 : List Json) (r : Json) (rs2 : List Json)
      (s b p : List String) (e : StatementError),
      get_array_or_single d vm.source_path = .ok records →
      records = rs1 ++ r :: rs2 →
      vertexLoop vm (vm.properties.map fun q => quote_identifier q.name) B rs1
        [] ((alookup pm vm.tag_name).getD []) = .ok (s, b, p) →
      vertexLoop vm (vm.properties.map fun q => quote_identifier q.name) B [r]
        b p = .error e →
      processVertexMapping d B pm vm = .error e) ∧
    (∀ (m : GraphMapping) (d : Json) (B : Nat) (vs : List String)
      (pm : List (String × List String))
      (ems1 : List EdgeMapping) (em : EdgeMapping) (ems2 : List EdgeMapping)
      (pre : List String) (e : StatementError),
      runVertexMappings d B m.vertices [] = .ok (vs, pm) →
      m.edges = ems1 ++ em :: ems2 →
      runEdgeMappings d B ems1 = .ok pre →
      processEdgeMapping d B em = .error e →
      generate_batch_statements m d B = .error e) := by
  refine ⟨?_, ?_, ?_⟩
  · intro m d B vms1 vm vms2 pre pm e hv hrun hproc
    unfold generate_batch_statements
    rw [hv, runVertexMappings_append, hrun]
    dsimp only
    rw [runVertexMappings_cons, hproc]
    rfl
  · intro vm d B pm records rs1 r rs2 s b p e hrec hsplit hpre hstep
    unfold processVertexMapping
    rw [hrec]
    dsimp only [except_bind_ok]
    rw [hsplit]
    have hsp : rs1 ++ r :: rs2 = rs1 ++ ([r] ++ rs2) := by simp
    rw [hsp, vertexLoop_append, hpre]
    dsimp only
    rw [vertexLoop_append, hstep]
    rfl
  · intro m d B vs pm ems1 em ems2 pre e hrun hedges hpre hproc
    unfold generate_batch_statements
    rw [hrun]
    dsimp only [except_bind_ok]
    rw [hedges, runEdgeMappings_append, hpre]
    dsimp only
    rw [runEdgeMappings_cons, hproc]
    rfl

/-- A vertex mapping whose source path does not exist in the witness
document, so its processing fails. -/
def badVM : VertexMapping :=
  { tag_name := "tag", source_path := "missing", key_path := "id",
    properties := [] }

/-- The witness document for the failing mapping. -/
def badDoc : Json := Json.obj [("x", Json.int 1)]

/-- The error `processVertexMapping` produces for `badVM` on
`badDoc`. -/
def badErr : StatementError :=
  ⟨"Failed to extract data: Property not found: missing",
    some "missing", none⟩

/-- C5 witnessed: a failing source path in the only vertex mapping
makes the whole call return exactly that error. -/
theorem generate_all_or_nothing_witness :
    ((⟨[badVM], []⟩ : GraphMapping).vertices = [] ++ badVM :: [] ∧
      runVertexMappings badDoc 500 [] [] = .ok ([], []) ∧
      processVertexMapping badDoc 500 [] badVM = .error badErr) ∧
    generate_batch_statements ⟨[badVM], []⟩ badDoc 500 = .error badErr :=
  ⟨⟨rfl, rfl, rfl⟩,
    generate_all_or_nothing.1 ⟨[badVM], []⟩ badDoc 500 [] badVM [] [] []
      badErr rfl rfl rfl⟩

/-- The tuple one record contributes to a (non-dynamic) vertex batch:
its quoted id and its formatted property values.  This is the
composition of the id and property steps of the record loop. -/
def vertexRecordTuple (vm : VertexMapping) (record : Json) :
    Except StatementError String := do
  let id_str ← get_vertex_id record vm.key_path
  let prop_values ← formatProps record vm.properties
  .ok (vertexTupleStr id_str prop_values)

theorem vertexRecordTuple_ok (vm : VertexMapping) (record : Json) (t : String)
    (h : vertexRecordTuple vm record = .ok t) :
    ∃ id vals, get_vertex_id record vm.key_path = .ok id ∧
      formatProps record vm.properties = .ok vals ∧
      t = vertexTupleStr id vals := by
  unfold vertexRecordTuple at h
  cases hid : get_vertex_id record vm.key_path with
  | error e => rw [hid, except_bind_err] at h; cases h
  | ok id =>
    rw [hid, except_bind_ok] at h
    cases hfp : formatProps record vm.properties with
    | error e => rw [hfp, except_bind_err] at h; cases h
    | ok vals =>
      rw [hfp, except_bind_ok] at h
      cases h
      exact ⟨id, vals, rfl, rfl, rfl⟩

theorem vertexLoop_small (vm : VertexMapping) (pn : List String) (B : Nat)
    (h_en : vm.dynamic_fields.enabled = false) (f : Json → String) :
    ∀ (rs : List Json) (batch processed : List String),
    (∀ r ∈ rs, vertexRecordTuple vm r = .ok (f r)) →
    batch.length + rs.length < B →
    vertexLoop vm pn B rs batch processed =
      .ok ([], batch ++ rs.map f, processed) := by
  intro rs
  induction rs with
  | nil => intro batch processed hok hlt; simp [vertexLoop]
  | cons r rs ih =>
    intro batch processed hok hlt
    obtain ⟨id, vals, hid, hfp, ht⟩ := vertexRecordTuple_ok vm r (f r)
      (hok r (List.mem_cons_self _ _))
    rw [vertexLoop_cons, hid, except_bind_ok]
    rw [h_en]
    simp only [Bool.false_and, Bool.false_eq_true, if_false]
    rw [hfp, except_bind_ok]
    rw [if_neg (show ¬B ≤ (batch ++ [vertexTupleStr id vals]).length by
      simp only [List.length_append, List.length_cons, List.length_nil]
      simp only [List.length_cons] at hlt
      omega)]
    rw [ih (batch ++ [vertexTupleStr id vals]) processed
      (fun x hx => hok x (List.mem_cons_of_mem _ hx))
      (by simp only [List.length_append, List.length_cons, List.length_nil]
          simp only [List.length_cons] at hlt
          omega)]
    simp [List.append_assoc, ← ht]

theorem vertexLoop_chunk (vm : VertexMapping) (pn : List String) (B : Nat)
    (h_en : vm.dynamic_fields.enabled = false) (f : Json → String) :
    ∀ (rs rest : List Json) (batch processed : List String),
    (∀ r ∈ rs, vertexRecordTuple vm r = .ok (f r)) →
    batch.length + rs.length = B → rs ≠ [] →
    vertexLoop vm pn B (rs ++ rest) batch processed =
      match vertexLoop vm pn B rest [] processed with
      | .error e => .error e
      | .ok (st, b2, p2) =>
        .ok (insertVertexStmt vm.tag_name pn (batch ++ rs.map f) :: st,
          b2, p2) := by
  intro rs
  induction rs with
  | nil => intro rest batch processed hok hB hne; exact absurd rfl hne
  | cons r rs ih =>
    intro rest batch processed hok hB hne
    obtain ⟨id, vals, hid, hfp, ht⟩ := vertexRecordTuple_ok vm r (f r)
      (hok r (List.mem_cons_self _ _))
    rw [List.cons_append, vertexLoop_cons, hid, except_bind_ok, h_en]
    simp only [Bool.false_and, Bool.false_eq_true, if_false]
    rw [hfp, except_bind_ok]
    cases hrs : rs with
    | nil =>
      subst hrs
      rw [if_pos (show B ≤ (batch ++ [vertexTupleStr id vals]).length by
        simp only [List.length_append, List.length_cons, List.length_nil]
        simp only [List.length_cons, List.length_nil] at hB
        omega)]
      simp only [List.nil_append]
      cases hrest : vertexLoop vm pn B rest [] processed with
      | error e => rfl
      | ok t =>
        obtain ⟨st, b2, p2⟩ := t
        dsimp only [except_bind_ok]
        simp [← ht]
    | cons r2 rs2 =>
      rw [if_neg (show ¬B ≤ (batch ++ [vertexTupleStr id vals]).length by
        simp only [List.length_append, List.length_cons, List.length_nil]
        rw [hrs] at hB
        simp only [List.length_cons] at hB
        omega)]
      rw [← hrs]
      rw [ih rest (batch ++ [vertexTupleStr id vals]) processed
        (fun x hx => hok x (List.mem_cons_of_mem _ hx))
        (by simp only [List.length_append, List.length_cons, List.length_nil]
            simp only [List.length_cons] at hB
            omega)
        (by rw [hrs]; exact List.cons_ne_nil _ _)]
      cases hrest : vertexLoop vm pn B rest [] processed with
      | error e => rfl
      | ok t =>
        obtain ⟨st, b2, p2⟩ := t
        have harr : batch ++ [vertexTupleStr id vals] ++ List.map f rs =
            batch ++ List.map f (r :: rs) := by
          simp [List.append_assoc, ← ht]
        rw [harr]

theorem vertexLoop_500_500_1 (vm : VertexMapping) (pn : List String)
    (h_en : vm.dynamic_fields.enabled = false) (f : Json → String)
    (c1 c2 c3 : List Json) (processed : List String)
    (hok1 : ∀ r ∈ c1, vertexRecordTuple vm r = .ok (f r))
    (hok2 : ∀ r ∈ c2, vertexRecordTuple vm r = .ok (f r))
    (hok3 : ∀ r ∈ c3, vertexRecordTuple vm r = .ok (f r))
    (hl1 : c1.length = 500) (hl2 : c2.length = 500) (hl3 : c3.length = 1) :
    vertexLoop vm pn 500 (c1 ++ (c2 ++ c3)) [] processed =
      .ok ([insertVertexStmt vm.tag_name pn (c1.map f),
            insertVertexStmt vm.tag_name pn (c2.map f)],
        c3.map f, processed) := by
  rw [vertexLoop_chunk vm pn 500 h_en f c1 (c2 ++ c3) [] processed hok1
    (by simp [hl1]) (by intro h; rw [h] at hl1; simp at hl1)]
  rw [vertexLoop_chunk vm pn 500 h_en f c2 c3 [] processed hok2
    (by simp [hl2]) (by intro h; rw [h] at hl2; simp at hl2)]
  rw [vertexLoop_small vm pn 500 h_en f c3 [] processed hok3 (by simp [hl3])]
  simp

/-- C2: a vertex mapping without dynamic fields whose source resolves to
1001 records, each of which produces its batch tuple successfully,
yields with batch size 500 exactly three `INSERT VERTEX` statements,
whose tuple lists are the first 500, the next 500, and the last 1
record tuples: a batch is flushed exactly when it reaches the batch
size and the non-empty partial batch is flushed after the record
loop. -/
theorem batch_flush_1001 (vm : VertexMapping) (d : Json) (f : Json → String)
    (records : List Json)
    (h_en : vm.dynamic_fields.enabled = false)
    (hrec : get_array_or_single d vm.source_path = .ok records)
    (hlen : records.length = 1001)
    (hok : ∀ r ∈ records, vertexRecordTuple vm r = .ok (f r)) :
    generate_batch_statements ⟨[vm], []⟩ d 500 =
      .ok [insertVertexStmt vm.tag_name
            (vm.properties.map fun p => quote_identifier p.name)
            ((records.take 500).map f),
          insertVertexStmt vm.tag_name
            (vm.properties.map fun p => quote_identifier p.name)
            (((records.drop 500).take 500).map f),
          insertVertexStmt vm.tag_name
            (vm.properties.map fun p => quote_identifier p.name)
            ((records.drop 1000).map f)] ∧
    (records.take 500).length = 500 ∧
    ((records.drop 500).take 500).length = 500 ∧
    (records.drop 1000).length = 1 := by
  have h1 : (records.take 500).length = 500 := by
    rw [List.length_take, hlen]
    decide
  have h2 : ((records.drop 500).take 500).length = 500 := by
    rw [List.length_take, List.length_drop, hlen]
    decide
  have h3 : (records.drop 1000).length = 1 := by
    rw [List.length_drop, hlen]
  have hsplit : records =
      records.take 500 ++ ((records.drop 500).take 500 ++ records.drop 1000) := by
    conv_lhs => rw [← List.take_append_drop 500 records]
    congr 1
    conv_lhs => rw [← List.take_append_drop 500 (records.drop 500)]
    congr 1
    rw [List.drop_drop]
  have hloop := vertexLoop_500_500_1 vm
    (vm.properties.map fun p => quote_identifier p.name) h_en f
    (records.take 500) ((records.drop 500).take 500) (records.drop 1000) []
    (fun r hr => hok r (List.take_subset _ _ hr))
    (fun r hr => hok r (List.drop_subset _ _ (List.take_subset _ _ hr)))
    (fun r hr => hok r (List.drop_subset _ _ hr))
    h1 h2 h3
  refine ⟨?_, h1, h2, h3⟩
  unfold generate_batch_statements runVertexMappings processVertexMapping
  rw [hrec]
  dsimp only [except_bind_ok]
  have hinit : (alookup ([] : List (String × List String)) vm.tag_name).getD []
      = [] := rfl
  rw [hinit]
  conv_lhs => rw [hsplit]
  rw [hloop]
  dsimp only [except_bind_ok]
  have hne : ((records.drop 1000).map f).isEmpty = false := by
    cases hc : records.drop 1000 with
    | nil => rw [hc] at h3; simp at h3
    | cons a l => simp [hc]
  rw [hne]
  simp only [Bool.false_eq_true, if_false]
  rw [h_en]
  simp only [Bool.false_eq_true, if_false]
  rfl

/-- The declared property of the batching demo mapping. -/
def batchDemoProp : Property :=
  { name := "name", json_path := "name", nebula_type := "string" }

/-- A plain (non-dynamic) vertex mapping for the C2 witness. -/
def bigDemoVM : VertexMapping :=
  { tag_name := "tag", source_path := "items", key_path := "id",
    properties := [batchDemoProp] }

/-- The record replicated 1001 times in the C2 witness document. -/
def batchDemoRec : Json :=
  Json.obj [("id", Json.str "v"), ("name", Json.str "X")]

/-- The C2 witness document: an array of 1001 records. -/
def batchDemoDoc : Json :=
  Json.obj [("items", Json.arr (List.replicate 1001 batchDemoRec))]

/-- The batch tuple every witness record produces. -/
def batchDemoTuple : String := "\"v\":(\"X\")"

/-- C2 witnessed on a concrete 1001-record document. -/
theorem batch_flush_1001_witness :
    (bigDemoVM.dynamic_fields.enabled = false ∧
      get_array_or_single batchDemoDoc bigDemoVM.source_path =
        .ok (List.replicate 1001 batchDemoRec) ∧
      (List.replicate 1001 batchDemoRec).length = 1001 ∧
      (∀ r ∈ List.replicate 1001 batchDemoRec,
        vertexRecordTuple bigDemoVM r =
          .ok ((fun _ => batchDemoTuple) r))) ∧
    (generate_batch_statements ⟨[bigDemoVM], []⟩ batchDemoDoc 500 =
      .ok [insertVertexStmt bigDemoVM.tag_name
            (bigDemoVM.properties.map fun p => quote_identifier p.name)
            (((List.replicate 1001 batchDemoRec).take 500).map
              fun _ => batchDemoTuple),
          insertVertexStmt bigDemoVM.tag_name
            (bigDemoVM.properties.map fun p => quote_identifier p.name)
            ((((List.replicate 1001 batchDemoRec).drop 500).take 500).map
              fun _ => batchDemoTuple),
          insertVertexStmt bigDemoVM.tag_name
            (bigDemoVM.properties.map fun p => quote_identifier p.name)
            (((List.replicate 1001 batchDemoRec).drop 1000).map
              fun _ => batchDemoTuple)] ∧
      ((List.replicate 1001 batchDemoRec).take 500).length = 500 ∧
      (((List.replicate 1001 batchDemoRec).drop 500).take 500).length = 500 ∧
      ((List.replicate 1001 batchDemoRec).drop 1000).length = 1) := by
  have hok : ∀ r ∈ List.replicate 1001 batchDemoRec,
      vertexRecordTuple bigDemoVM r = .ok ((fun _ => batchDemoTuple) r) := by
    intro r hr
    rw [List.eq_of_mem_replicate hr]
    rfl
  have hlen : (List.replicate 1001 batchDemoRec).length = 1001 :=
    List.length_replicate 1001 batchDemoRec
  exact ⟨⟨rfl, rfl, hlen, hok⟩,
    batch_flush_1001 bigDemoVM batchDemoDoc (fun _ => batchDemoTuple)
      (List.replicate 1001 batchDemoRec) rfl rfl hlen hok⟩
